import Mathlib

/-!
# Block metrics of the op-node (`op-node/metrics/block.go`)

A shallow embedding of `BlockMetrics.record`, `RecordBlock`,
`RecordExecutionPayload` and `bigWeiToFloatGwei`.

Modelling conventions.

* The Prometheus sinks are write-only.  A call of `record` is modelled by the
  list of sink operations it performs, in program order (`Event`).
* `float64` values are rationals (`ℚ`), and `+`, `/` on them are the field
  operations.  The conversion `float64(gasUsed)` of the block's gas used, an
  arbitrary `uint64`, rounds to 53 significant bits (`float64OfUint64`); the
  conversions of sizes, lengths, counts and nonces are read as exact casts.
* `uint64` values are naturals; where the source does arithmetic on them
  (`bodySize += size`, `big.Int.Uint64`) the wrap-around `% 2 ^ 64` is explicit.
* `*big.Int` is `Option Int`: `none` is the nil pointer.
* `chaincfg.Goerli.BatchInboxAddress` is defined in another package
  (`op-node/chaincfg`); it is the parameter `batchInbox` of every definition
  that reads it.
-/

namespace BlockMetrics

/-! ## Data model -/

/-- The type `common.Address`: 20 bytes, read as a big-endian number. -/
abbrev Address := Fin (2 ^ 160)

/-- Raw bytes (`[]byte`, `eth.Data`). -/
abbrev Bytes := List (Fin 256)

/-- The view of `*types.Transaction` that `record` reads: the results of
`Type()`, `To()`, `Size()`, `Data()`, `Nonce()`, `GasTipCap()` and
`GasFeeCap()`. -/
structure Transaction where
  /-- Result of `Type()`, a `uint8`. -/
  TxType : Nat
  /-- Result of `To()`; `none` is the nil pointer. -/
  To : Option Address
  /-- Result of `Size()`, a `uint64`. -/
  Size : Nat
  /-- Result of `Data()`. -/
  Data : Bytes
  /-- Result of `Nonce()`, a `uint64`. -/
  Nonce : Nat
  /-- Result of `GasTipCap()`. -/
  GasTipCap : Int
  /-- Result of `GasFeeCap()`. -/
  GasFeeCap : Int
deriving DecidableEq

/-- The constant `types.DepositTxType`. -/
def DepositTxType : Nat := 0x7E

/-- The variable `goerliBaseInbox`. -/
def goerliBaseInbox : Address := 0x8453100000000000000000000000000000000000

/-- The constant `l1InfoTx`. -/
def l1InfoTx : String := "l1_info"

/-- The constant `userDepositTx`. -/
def userDepositTx : String := "user_deposit"

/-- The constant `contractDeployment`. -/
def contractDeployment : String := "contract"

/-- The constant `otherTx`. -/
def otherTx : String := "other"

/-- The constant `params.GWei`. -/
def GWei : Nat := 1000000000

/-- The fields of the struct `BlockMetrics`: one name per sink. -/
inductive Sink where
  | BodySizes
  | TransactionCounts
  | GasUsed
  | TransactionSize
  | TransactionCallData
  | TransactionNonce
  | TransactionGasLimit
  | TransactionType
  | TransactionMaxFee
  | TransactionPriorityFee
  | BaseFees
  | BaseFeeGauge
deriving DecidableEq, Repr

/-- One sink operation performed by `record`. -/
inductive Event where
  /-- The call `bm.<sink>.Observe(v)` on a histogram. -/
  | observe (sink : Sink) (v : ℚ)
  /-- The call `bm.<sink>.WithLabelValues(label).Observe(v)` on a histogram vector. -/
  | observeTagged (sink : Sink) (label : String) (v : ℚ)
  /-- The call `bm.<sink>.WithLabelValues(label).Inc()` on a counter vector. -/
  | inc (sink : Sink) (label : String)
  /-- The call `bm.<sink>.Set(v)` on a gauge. -/
  | set (sink : Sink) (v : ℚ)
deriving DecidableEq

/-- The sink an operation goes to. -/
def Event.sink : Event → Sink
  | .observe s _ => s
  | .observeTagged s _ _ => s
  | .inc s _ => s
  | .set s _ => s

/-- What a call of `record` did: the sink operations performed, in order, and
whether the call ended in a run-time panic instead of returning. -/
structure Outcome where
  trace : List Event
  panicked : Bool
deriving DecidableEq

/-! ## `bigWeiToFloatGwei` -/

/-- The method `(*big.Int).Uint64`: the low 64 bits of the absolute value. -/
def bigUint64 (x : Int) : Nat := x.natAbs % 2 ^ 64

/-- The function `bigWeiToFloatGwei` on a non-nil argument.  `QuoRem` is
truncated division. -/
def bigWeiToFloatGwei (v : Int) : ℚ :=
  let quo := Int.tdiv v (GWei : Int)
  let rem := Int.tmod v (GWei : Int)
  ((bigUint64 quo : Nat) : ℚ) + ((bigUint64 rem : Nat) : ℚ) / (GWei : ℚ)

/-- The position of the highest set bit of `n` (0 when `n < 2`), found by
halving at most `fuel` times; 64 halvings cover every `uint64`. -/
def highBit : Nat → Nat → Nat
  | 0, _ => 0
  | fuel + 1, n => if n < 2 then 0 else highBit fuel (n / 2) + 1

/-- The conversion `float64(n)` of a `uint64`: exact below `2 ^ 53`, otherwise
`n` rounded to 53 significant bits, to nearest and on a tie to the even
significand. -/
def float64OfUint64 (n : Nat) : ℚ :=
  if n < 2 ^ 53 then (n : ℚ)
  else
    let e := highBit 64 n - 52
    let q := n / 2 ^ e
    let r := n % 2 ^ e
    let half := 2 ^ (e - 1)
    let q' := if half < r ∨ (r = half ∧ q % 2 = 1) then q + 1 else q
    ((q' * 2 ^ e : Nat) : ℚ)

/-! ## `record` -/

/-- Lines 147-165 of `record`: the tag of the transaction `tx` at index `i`. -/
def txTag (batchInbox : Address) (i : Nat) (tx : Transaction) : String :=
  if tx.TxType = DepositTxType then
    if i = 0 then l1InfoTx else userDepositTx
  else
    match tx.To with
    | some dst =>
      if dst = batchInbox then "op-inbox"
      else if dst = goerliBaseInbox then "base-inbox"
      else otherTx
    | none => contractDeployment

/-- The loop variables of `record`: the running `bodySize` and the sink
operations performed so far. -/
structure LoopState where
  bodySize : Nat
  emitted : List Event
deriving DecidableEq

/-- Lines 166-172 of `record`: the sink operations for the transaction `tx`
once its tag is known. -/
def txEvents (tag : String) (tx : Transaction) : List Event :=
  [ Event.observeTagged Sink.TransactionSize tag (tx.Size : ℚ),
    Event.observeTagged Sink.TransactionCallData tag (tx.Data.length : ℚ),
    Event.observe Sink.TransactionNonce (tx.Nonce : ℚ),
    Event.inc Sink.TransactionType (Nat.repr tx.TxType),
    Event.observe Sink.TransactionPriorityFee (bigWeiToFloatGwei tx.GasTipCap),
    Event.observe Sink.TransactionMaxFee (bigWeiToFloatGwei tx.GasFeeCap) ]

/-- One iteration of the loop of `record`, for index `i` and slot `slot`. -/
def recordStep (batchInbox : Address) (st : LoopState) (i : Nat)
    (slot : Option Transaction) : LoopState :=
  match slot with
  | none => st
  | some tx =>
    { bodySize := (st.bodySize + tx.Size) % 2 ^ 64
      emitted := st.emitted ++ txEvents (txTag batchInbox i tx) tx }

/-- The loop `for i, tx := range txs` of `record`, entered at index `i`. -/
def recordLoop (batchInbox : Address) : Nat → LoopState → List (Option Transaction) → LoopState
  | _, st, [] => st
  | i, st, slot :: rest => recordLoop batchInbox (i + 1) (recordStep batchInbox st i slot) rest

/-- The method `BlockMetrics.record`.  A nil `baseFee` is dereferenced inside
`bigWeiToFloatGwei`, after the first three block-level observations. -/
def record (batchInbox : Address) (gasUsed : Nat) (baseFee : Option Int)
    (txs : List (Option Transaction)) : Outcome :=
  let st := recordLoop batchInbox 0 { bodySize := 0, emitted := [] } txs
  let emitted := st.emitted ++
    [ Event.observe Sink.BodySizes (st.bodySize : ℚ),
      Event.observe Sink.TransactionCounts (txs.length : ℚ),
      Event.observe Sink.GasUsed (float64OfUint64 gasUsed) ]
  match baseFee with
  | none => { trace := emitted, panicked := true }
  | some v =>
    let baseFeeFloat := bigWeiToFloatGwei v
    { trace := emitted ++
        [ Event.observe Sink.BaseFees baseFeeFloat,
          Event.set Sink.BaseFeeGauge baseFeeFloat ]
      panicked := false }

/-- The sink operations of the loop of `record` over `txs`, entered at index
`start`. -/
def loopEvents (batchInbox : Address) (start : Nat) (txs : List (Option Transaction)) :
    List Event :=
  (recordLoop batchInbox start { bodySize := 0, emitted := [] } txs).emitted

/-! ## `RecordBlock` and `RecordExecutionPayload` -/

/-- What `record` reads of an `eth.BlockInfo`: the results of `GasUsed()` and
`BaseFee()`. -/
structure BlockInfo where
  GasUsed : Nat
  BaseFee : Option Int

/-- The method `BlockMetrics.RecordBlock`. -/
def RecordBlock (batchInbox : Address) (info : BlockInfo) (txs : List (Option Transaction)) :
    Outcome :=
  record batchInbox info.GasUsed info.BaseFee txs

/-- What `RecordExecutionPayload` reads of a non-nil `*eth.ExecutionPayload`:
`GasUsed` (a `uint64`), `BaseFeePerGas` (a 256-bit unsigned integer) and the raw
`Transactions`. -/
structure ExecutionPayload where
  GasUsed : Nat
  BaseFeePerGas : Nat
  Transactions : List Bytes

/-- The decode loop of `RecordExecutionPayload`, entered at index `i` with the
slice `txs`.  `unmarshalBinary` stands for `(*types.Transaction).UnmarshalBinary`
on a fresh transaction: the error or the decoded transaction. -/
def decodeLoop (unmarshalBinary : Bytes → Except String Transaction) :
    Nat → List Bytes → List (Option Transaction) → List (Option Transaction)
  | _, [], txs => txs
  | i, encTx :: rest, txs =>
    match unmarshalBinary encTx with
    | .error _ => decodeLoop unmarshalBinary (i + 1) rest txs
    | .ok tx => decodeLoop unmarshalBinary (i + 1) rest (txs.set i (some tx))

/-- Lines 187-194 of `RecordExecutionPayload`: `make` a slice of nil pointers of
the length of the raw list, then run the decode loop over it. -/
def decodeTransactions (unmarshalBinary : Bytes → Except String Transaction)
    (raws : List Bytes) : List (Option Transaction) :=
  decodeLoop unmarshalBinary 0 raws (List.replicate raws.length none)

/-- The method `BlockMetrics.RecordExecutionPayload`. -/
def RecordExecutionPayload (batchInbox : Address)
    (unmarshalBinary : Bytes → Except String Transaction) (payload : ExecutionPayload) :
    Outcome :=
  let txs := decodeTransactions unmarshalBinary payload.Transactions
  record batchInbox payload.GasUsed (some (payload.BaseFeePerGas : Int)) txs

/-! ## The classification chain as specified -/

/-- The table of inbox addresses that the switch of `record` encodes. -/
def inboxAddresses (batchInbox : Address) : List (Address × String) :=
  [(batchInbox, "op-inbox"), (goerliBaseInbox, "base-inbox")]

/-- The rule chain of the specification (section 4.2), over a table of inbox
addresses: kind first, then inbox address, then absent destination, then the
default.  The tag names are the constants of the source. -/
def classify (inbox : List (Address × String)) (index : Nat) (tx : Transaction) : String :=
  if tx.TxType = DepositTxType then
    if index = 0 then l1InfoTx else userDepositTx
  else
    match tx.To.bind (fun dst => inbox.lookup dst) with
    | some tag => tag
    | none => if tx.To = none then contractDeployment else otherTx

/-- The sum of the sizes of the present transactions of a sequence. -/
def presentSize (txs : List (Option Transaction)) : Nat :=
  (txs.reduceOption.map Transaction.Size).sum

/-! ## Sample inputs -/

/-- A batch-inbox address to evaluate at. -/
def sampleBatchInbox : Address := 0xff00000000000000000000000000000000000420

/-- A deposit transaction, here one sent to `goerliBaseInbox`. -/
def sampleDeposit : Transaction :=
  { TxType := 0x7E, To := some goerliBaseInbox, Size := 200, Data := [1, 2, 3],
    Nonce := 0, GasTipCap := 0, GasFeeCap := 0 }

/-- A dynamic-fee transaction with destination `dst`. -/
def sampleDynamicFee (dst : Option Address) : Transaction :=
  { TxType := 2, To := dst, Size := 120, Data := [7, 7], Nonce := 9,
    GasTipCap := 1500000000, GasFeeCap := 30000000000 }

/-- A decoder to evaluate at: the empty byte string is malformed, every other
one decodes to `sampleDeposit`. -/
def sampleUnmarshal (encTx : Bytes) : Except String Transaction :=
  if encTx = [] then .error "typed transaction too short" else .ok sampleDeposit

/-! ## `NewBlockMetrics` -/

/-- The fields of `prometheus.HistogramOpts` that `NewBlockMetrics` fills; a
`Buckets` left out is the nil slice. -/
structure HistogramOpts where
  Namespace : String
  Subsystem : String
  Name : String
  Help : String
  Buckets : List ℚ
deriving DecidableEq

/-- The fields of `prometheus.CounterOpts` that `NewBlockMetrics` fills. -/
structure CounterOpts where
  Namespace : String
  Subsystem : String
  Name : String
  Help : String
deriving DecidableEq

/-- The fields of `prometheus.GaugeOpts` that `NewBlockMetrics` fills. -/
structure GaugeOpts where
  Namespace : String
  Subsystem : String
  Name : String
  Help : String
deriving DecidableEq

/-- The interface `metrics.Factory` (package `op-service/metrics`), as far as
`NewBlockMetrics` calls it: each method hands back the sink it created.  The
sink types `H`, `HV`, `CV`, `G` stand for `prometheus.Histogram`,
`*prometheus.HistogramVec`, `*prometheus.CounterVec` and `prometheus.Gauge`. -/
structure Factory (H HV CV G : Type) where
  NewHistogram : HistogramOpts → H
  NewHistogramVec : HistogramOpts → List String → HV
  NewCounterVec : CounterOpts → List String → CV
  NewGauge : GaugeOpts → G

set_option linter.dupNamespace false

/-- The struct `BlockMetrics`.  Every field is an interface value or a pointer:
`none` is the unset (nil) field. -/
structure BlockMetrics (H HV CV G : Type) where
  BodySizes : Option H
  TransactionCounts : Option H
  GasUsed : Option H
  TransactionSize : Option HV
  TransactionCallData : Option HV
  TransactionNonce : Option H
  TransactionGasLimit : Option H
  TransactionType : Option CV
  TransactionMaxFee : Option H
  TransactionPriorityFee : Option H
  BaseFees : Option H
  BaseFeeGauge : Option G

/-- The variable `sizeBuckets`. -/
def sizeBuckets : List ℚ :=
  [0, 100, 1000, 5000, 10000, 25000, 50000, 75000, 100000, 150000, 200000]

/-- The variable `feeBuckets`. -/
def feeBuckets : List ℚ := [0, 1 / 10, 1, 25 / 4, 25 / 2, 25, 50, 100, 200, 400, 800]

/-- The function `NewBlockMetrics`.  The composite literal names eleven fields;
`TransactionGasLimit` is not among them and keeps its zero value. -/
def NewBlockMetrics {H HV CV G : Type} (factory : Factory H HV CV G)
    (ns subsystem displayName : String) : BlockMetrics H HV CV G :=
  { BodySizes := some (factory.NewHistogram
      { Namespace := ns, Subsystem := subsystem, Name := "block_body_sizes",
        Help := displayName ++
          " block body size in bytes: total sum of transaction sizes, with 4 bytes overhead per tx.",
        Buckets := sizeBuckets })
    TransactionCounts := some (factory.NewHistogram
      { Namespace := ns, Subsystem := subsystem, Name := "transaction_counts",
        Help := displayName ++ " transaction count per block",
        Buckets := [0, 1, 5, 10, 20, 40, 80, 160] })
    GasUsed := some (factory.NewHistogram
      { Namespace := ns, Subsystem := subsystem, Name := "block_gas_used",
        Help := displayName ++ " total gas used in block",
        Buckets := [] })
    TransactionSize := some (factory.NewHistogramVec
      { Namespace := ns, Subsystem := subsystem, Name := "transaction_size",
        Help := displayName ++ " transaction size in bytes, tagged if recognized",
        Buckets := sizeBuckets } ["tx_tag"])
    TransactionCallData := some (factory.NewHistogramVec
      { Namespace := ns, Subsystem := subsystem, Name := "transaction_call_data",
        Help := displayName ++ " transaction call data length in bytes, tagged if recognized",
        Buckets := sizeBuckets } ["tx_tag"])
    TransactionNonce := some (factory.NewHistogram
      { Namespace := ns, Subsystem := subsystem, Name := "transaction_nonce",
        Help := displayName ++
          " transaction nonce, to detect anomalies in user transactions, e.g. new users or power-users",
        Buckets := [0, 2, 4, 10, 25, 50, 100, 1000, 10000, 50000] })
    TransactionGasLimit := none
    TransactionType := some (factory.NewCounterVec
      { Namespace := ns, Subsystem := subsystem, Name := "transaction_type",
        Help := displayName ++ " transaction type usage" } ["tx_type"])
    TransactionMaxFee := some (factory.NewHistogram
      { Namespace := ns, Subsystem := subsystem, Name := "transaction_max_fee",
        Help := displayName ++ " transaction max fee per gas in gwei",
        Buckets := feeBuckets })
    TransactionPriorityFee := some (factory.NewHistogram
      { Namespace := ns, Subsystem := subsystem, Name := "transaction_priority_fee",
        Help := displayName ++ " transaction priority fee per gas in gwei",
        Buckets := feeBuckets })
    BaseFees := some (factory.NewHistogram
      { Namespace := ns, Subsystem := subsystem, Name := "base_fees",
        Help := displayName ++ " block base-fee per gas in gwei, histogram data",
        Buckets := feeBuckets })
    BaseFeeGauge := some (factory.NewGauge
      { Namespace := ns, Subsystem := subsystem, Name := "base_fee_gauge",
        Help := displayName ++ "block base-fee per gas in gwei, gauge" }) }

/-- Whether the field of `bm` that the sink name `s` stands for is set. -/
def BlockMetrics.isSet {H HV CV G : Type} (bm : BlockMetrics H HV CV G) : Sink → Bool
  | .BodySizes => bm.BodySizes.isSome
  | .TransactionCounts => bm.TransactionCounts.isSome
  | .GasUsed => bm.GasUsed.isSome
  | .TransactionSize => bm.TransactionSize.isSome
  | .TransactionCallData => bm.TransactionCallData.isSome
  | .TransactionNonce => bm.TransactionNonce.isSome
  | .TransactionGasLimit => bm.TransactionGasLimit.isSome
  | .TransactionType => bm.TransactionType.isSome
  | .TransactionMaxFee => bm.TransactionMaxFee.isSome
  | .TransactionPriorityFee => bm.TransactionPriorityFee.isSome
  | .BaseFees => bm.BaseFees.isSome
  | .BaseFeeGauge => bm.BaseFeeGauge.isSome

/-- The operations of `trace` as performed on the struct `bm`: a method call on
an unset sink is a nil dereference and ends the run there. -/
def performOn {H HV CV G : Type} (bm : BlockMetrics H HV CV G) :
    List Event → List Event × Bool
  | [] => ([], false)
  | e :: rest =>
    if bm.isSet e.sink then
      let r := performOn bm rest
      (e :: r.1, r.2)
    else ([], true)

/-- The method `record` with its receiver `bm`: the run of `record`, cut short
at the first operation on an unset sink of `bm`. -/
def recordOn {H HV CV G : Type} (bm : BlockMetrics H HV CV G) (batchInbox : Address)
    (gasUsed : Nat) (baseFee : Option Int) (txs : List (Option Transaction)) : Outcome :=
  let run := record batchInbox gasUsed baseFee txs
  let r := performOn bm run.trace
  { trace := r.1, panicked := r.2 || run.panicked }

/-! ## The run-time checks of the recording calls

The definitions of this section follow the same source lines as `record`,
`RecordBlock` and `RecordExecutionPayload`, with every operation that can
panic at run time made explicit: a method call on an unset sink of the
receiver, `QuoRem` on a nil operand or by a zero divisor, an index past the
end of a slice, and the dereference of a nil payload.  The receiver itself is
a constructed (non-nil) struct.  Each vector is created with one label name
and `WithLabelValues` is called with one value, so that call has no check to
fail. -/

/-- The method `(*big.Int).QuoRem` on pointer operands: the truncated quotient
and remainder; a nil operand or a zero divisor panics (`none`). -/
def bigQuoRem (x y : Option Int) : Option (Int × Int) :=
  match x, y with
  | some a, some d => if d = 0 then none else some (Int.tdiv a d, Int.tmod a d)
  | _, _ => none

/-- The variable `bigGweiUnit`. -/
def bigGweiUnit : Option Int := some (GWei : Int)

/-- The function `bigWeiToFloatGwei` on its pointer argument; `none` is a
panic inside `QuoRem`. -/
def bigWeiToFloatGweiPtr (v : Option Int) : Option ℚ :=
  match bigQuoRem v bigGweiUnit with
  | none => none
  | some (quo, rem) =>
    some (((bigUint64 quo : Nat) : ℚ) + ((bigUint64 rem : Nat) : ℚ) / (GWei : ℚ))

/-- One sink operation on the struct `bm` in the run `o`: nothing happens after
a panic, and an unset sink panics. -/
def callSink {H HV CV G : Type} (bm : BlockMetrics H HV CV G) (o : Outcome) (e : Event) :
    Outcome :=
  if o.panicked then o
  else if bm.isSet e.sink then { trace := o.trace ++ [e], panicked := false }
  else { trace := o.trace, panicked := true }

/-- The statement `bm.<sink>.Observe(bigWeiToFloatGwei(v))` in the run `o`. -/
def observeGwei {H HV CV G : Type} (bm : BlockMetrics H HV CV G) (o : Outcome) (sink : Sink)
    (v : Option Int) : Outcome :=
  if o.panicked then o
  else
    match bigWeiToFloatGweiPtr v with
    | none => { trace := o.trace, panicked := true }
    | some x => callSink bm o (Event.observe sink x)

/-- The loop variables of the checked `record`. -/
structure CheckedState where
  bodySize : Nat
  run : Outcome

/-- One iteration of the loop of `record` on the struct `bm`, lines 142-172. -/
def recordStepChecked {H HV CV G : Type} (bm : BlockMetrics H HV CV G) (batchInbox : Address)
    (st : CheckedState) (i : Nat) (slot : Option Transaction) : CheckedState :=
  if st.run.panicked then st
  else
    match slot with
    | none => st
    | some tx =>
      let size := tx.Size
      let bodySize := (st.bodySize + size) % 2 ^ 64
      let tag := txTag batchInbox i tx
      let o1 := callSink bm st.run (Event.observeTagged Sink.TransactionSize tag (size : ℚ))
      let o2 := callSink bm o1
        (Event.observeTagged Sink.TransactionCallData tag (tx.Data.length : ℚ))
      let o3 := callSink bm o2 (Event.observe Sink.TransactionNonce (tx.Nonce : ℚ))
      let o4 := callSink bm o3 (Event.inc Sink.TransactionType (Nat.repr tx.TxType))
      let o5 := observeGwei bm o4 Sink.TransactionPriorityFee (some tx.GasTipCap)
      let o6 := observeGwei bm o5 Sink.TransactionMaxFee (some tx.GasFeeCap)
      { bodySize := bodySize, run := o6 }

/-- The loop of `record` on the struct `bm`, entered at index `i`. -/
def recordLoopChecked {H HV CV G : Type} (bm : BlockMetrics H HV CV G) (batchInbox : Address) :
    Nat → CheckedState → List (Option Transaction) → CheckedState
  | _, st, [] => st
  | i, st, slot :: rest =>
    recordLoopChecked bm batchInbox (i + 1) (recordStepChecked bm batchInbox st i slot) rest

/-- The method `record` on the struct `bm`, with its run-time checks. -/
def recordChecked {H HV CV G : Type} (bm : BlockMetrics H HV CV G) (batchInbox : Address)
    (gasUsed : Nat) (baseFee : Option Int) (txs : List (Option Transaction)) : Outcome :=
  let st := recordLoopChecked bm batchInbox 0
    { bodySize := 0, run := { trace := [], panicked := false } } txs
  let o1 := callSink bm st.run (Event.observe Sink.BodySizes (st.bodySize : ℚ))
  let o2 := callSink bm o1 (Event.observe Sink.TransactionCounts (txs.length : ℚ))
  let o3 := callSink bm o2 (Event.observe Sink.GasUsed (float64OfUint64 gasUsed))
  if o3.panicked then o3
  else
    match bigWeiToFloatGweiPtr baseFee with
    | none => { trace := o3.trace, panicked := true }
    | some baseFeeFloat =>
      let o4 := callSink bm o3 (Event.observe Sink.BaseFees baseFeeFloat)
      callSink bm o4 (Event.set Sink.BaseFeeGauge baseFeeFloat)

/-- The method `RecordBlock` on the struct `bm`, with its run-time checks. -/
def RecordBlockChecked {H HV CV G : Type} (bm : BlockMetrics H HV CV G) (batchInbox : Address)
    (info : BlockInfo) (txs : List (Option Transaction)) : Outcome :=
  recordChecked bm batchInbox info.GasUsed info.BaseFee txs

/-- The decode loop of `RecordExecutionPayload` with the bounds check of the
assignment `txs[i] = &tx`; `none` is an index out of range. -/
def decodeLoopChecked (unmarshalBinary : Bytes → Except String Transaction) :
    Nat → List Bytes → List (Option Transaction) → Option (List (Option Transaction))
  | _, [], txs => some txs
  | i, encTx :: rest, txs =>
    match unmarshalBinary encTx with
    | .error _ => decodeLoopChecked unmarshalBinary (i + 1) rest txs
    | .ok tx =>
      if i < txs.length then
        decodeLoopChecked unmarshalBinary (i + 1) rest (txs.set i (some tx))
      else none

/-- The method `RecordExecutionPayload` on the struct `bm` and the pointer
`payload`, with its run-time checks: a nil payload is dereferenced by
`len(payload.Transactions)` before anything is recorded. -/
def RecordExecutionPayloadChecked {H HV CV G : Type} (bm : BlockMetrics H HV CV G)
    (batchInbox : Address) (unmarshalBinary : Bytes → Except String Transaction)
    (payload : Option ExecutionPayload) : Outcome :=
  match payload with
  | none => { trace := [], panicked := true }
  | some p =>
    match decodeLoopChecked unmarshalBinary 0 p.Transactions
        (List.replicate p.Transactions.length none) with
    | none => { trace := [], panicked := true }
    | some txs => recordChecked bm batchInbox p.GasUsed (some (p.BaseFeePerGas : Int)) txs

/-- A factory to evaluate at: every sink is the name it was created under. -/
def sampleFactory : Factory String String String String :=
  { NewHistogram := fun opts => opts.Name
    NewHistogramVec := fun opts _ => opts.Name
    NewCounterVec := fun opts _ => opts.Name
    NewGauge := fun opts => opts.Name }

/-! ## Lemmas on the loop of `record` -/

theorem recordLoop_emitted (b : Address) (txs : List (Option Transaction)) :
    ∀ (i : Nat) (st : LoopState),
      (recordLoop b i st txs).emitted = st.emitted ++ loopEvents b i txs := by
  induction txs with
  | nil => intro i st; simp [recordLoop, loopEvents]
  | cons slot rest ih =>
    intro i st
    unfold loopEvents
    simp only [recordLoop]
    rw [ih (i + 1) (recordStep b st i slot),
      ih (i + 1) (recordStep b { bodySize := 0, emitted := [] } i slot)]
    cases slot <;> simp [recordStep, loopEvents]

theorem loopEvents_nil (b : Address) (i : Nat) : loopEvents b i [] = [] := by
  simp [loopEvents, recordLoop]

theorem loopEvents_cons_none (b : Address) (i : Nat) (rest : List (Option Transaction)) :
    loopEvents b i (none :: rest) = loopEvents b (i + 1) rest := by
  simp [loopEvents, recordLoop, recordStep]

theorem loopEvents_cons_some (b : Address) (i : Nat) (tx : Transaction)
    (rest : List (Option Transaction)) :
    loopEvents b i (some tx :: rest)
      = txEvents (txTag b i tx) tx ++ loopEvents b (i + 1) rest := by
  unfold loopEvents
  simp only [recordLoop]
  rw [recordLoop_emitted]
  simp [recordStep, loopEvents]

theorem loopEvents_append (b : Address) (xs ys : List (Option Transaction)) :
    ∀ i : Nat, loopEvents b i (xs ++ ys)
      = loopEvents b i xs ++ loopEvents b (i + xs.length) ys := by
  induction xs with
  | nil => intro i; simp [loopEvents_nil]
  | cons slot rest ih =>
    intro i
    cases slot with
    | none =>
      simp only [List.cons_append, loopEvents_cons_none, ih, List.length_cons]
      congr 2; omega
    | some tx =>
      simp only [List.cons_append, loopEvents_cons_some, ih, List.length_cons,
        List.append_assoc]
      congr 3; omega

/-- The events of the loop split around a present slot `i`. -/
theorem loopEvents_at (b : Address) (txs : List (Option Transaction)) (i : Nat)
    (tx : Transaction) (h : txs[i]? = some (some tx)) :
    loopEvents b 0 txs
      = loopEvents b 0 (txs.take i) ++ txEvents (txTag b i tx) tx
          ++ loopEvents b (i + 1) (txs.drop (i + 1)) := by
  have hlt : i < txs.length := by
    rcases List.getElem?_eq_some_iff.mp h with ⟨hlt, _⟩
    exact hlt
  have hsplit : txs = txs.take i ++ some tx :: txs.drop (i + 1) := by
    have hget : txs[i] = some tx := by
      rcases List.getElem?_eq_some_iff.mp h with ⟨_, hget⟩
      exact hget
    rw [← hget, ← List.drop_eq_getElem_cons hlt, List.take_append_drop]
  have hlen : (txs.take i).length = i := by
    simp [List.length_take]; omega
  conv_lhs => rw [hsplit]
  rw [loopEvents_append, loopEvents_cons_some, hlen]
  simp

/-- The trace of `record`: the events of the loop, then the block-level ones. -/
theorem record_trace (b : Address) (gasUsed : Nat) (baseFee : Option Int)
    (txs : List (Option Transaction)) :
    (record b gasUsed baseFee txs).trace
      = loopEvents b 0 txs
        ++ ([ Event.observe Sink.BodySizes
                ((recordLoop b 0 { bodySize := 0, emitted := [] } txs).bodySize : ℚ),
              Event.observe Sink.TransactionCounts (txs.length : ℚ),
              Event.observe Sink.GasUsed (float64OfUint64 gasUsed) ]
            ++ match baseFee with
               | none => []
               | some v => [ Event.observe Sink.BaseFees (bigWeiToFloatGwei v),
                             Event.set Sink.BaseFeeGauge (bigWeiToFloatGwei v) ]) := by
  cases baseFee <;> simp [record, loopEvents]

/-- The six sinks the loop of `record` writes to. -/
theorem txEvents_sink (tag : String) (tx : Transaction) (e : Event)
    (he : e ∈ txEvents tag tx) :
    e.sink = Sink.TransactionSize ∨ e.sink = Sink.TransactionCallData
      ∨ e.sink = Sink.TransactionNonce ∨ e.sink = Sink.TransactionType
      ∨ e.sink = Sink.TransactionPriorityFee ∨ e.sink = Sink.TransactionMaxFee := by
  simp only [txEvents, List.mem_cons, List.mem_singleton, List.not_mem_nil, or_false] at he
  rcases he with h | h | h | h | h | h <;> subst h <;> simp [Event.sink]

theorem loopEvents_sink (b : Address) (txs : List (Option Transaction)) :
    ∀ (i : Nat) (e : Event), e ∈ loopEvents b i txs →
      e.sink = Sink.TransactionSize ∨ e.sink = Sink.TransactionCallData
        ∨ e.sink = Sink.TransactionNonce ∨ e.sink = Sink.TransactionType
        ∨ e.sink = Sink.TransactionPriorityFee ∨ e.sink = Sink.TransactionMaxFee := by
  induction txs with
  | nil => intro i e he; simp [loopEvents_nil] at he
  | cons slot rest ih =>
    intro i e he
    cases slot with
    | none =>
      rw [loopEvents_cons_none] at he
      exact ih (i + 1) e he
    | some tx =>
      rw [loopEvents_cons_some, List.mem_append] at he
      rcases he with he | he
      · exact txEvents_sink _ tx e he
      · exact ih (i + 1) e he

/-- The loop of `record` writes to no block-level sink. -/
theorem loopEvents_filter_block (b : Address) (txs : List (Option Transaction)) (i : Nat)
    (s : Sink) (h1 : s ≠ Sink.TransactionSize) (h2 : s ≠ Sink.TransactionCallData)
    (h3 : s ≠ Sink.TransactionNonce) (h4 : s ≠ Sink.TransactionType)
    (h5 : s ≠ Sink.TransactionPriorityFee) (h6 : s ≠ Sink.TransactionMaxFee) :
    (loopEvents b i txs).filter (fun e => decide (e.sink = s)) = [] := by
  rw [List.filter_eq_nil_iff]
  intro e he hs
  have hs' : e.sink = s := by simpa using hs
  rcases loopEvents_sink b txs i e he with h | h | h | h | h | h <;>
    (rw [h] at hs'; first
      | exact h1 hs'.symm | exact h2 hs'.symm | exact h3 hs'.symm
      | exact h4 hs'.symm | exact h5 hs'.symm | exact h6 hs'.symm)

theorem presentSize_nil : presentSize [] = 0 := by
  simp [presentSize]

theorem presentSize_cons_none (rest : List (Option Transaction)) :
    presentSize (none :: rest) = presentSize rest := by
  simp [presentSize, List.reduceOption_cons_of_none]

theorem presentSize_cons_some (tx : Transaction) (rest : List (Option Transaction)) :
    presentSize (some tx :: rest) = tx.Size + presentSize rest := by
  simp [presentSize, List.reduceOption_cons_of_some]

/-- The running `bodySize` after the loop: the sizes of the present
transactions added up in `uint64`. -/
theorem recordLoop_bodySize (b : Address) (txs : List (Option Transaction)) :
    ∀ (i : Nat) (st : LoopState), st.bodySize < 2 ^ 64 →
      (recordLoop b i st txs).bodySize = (st.bodySize + presentSize txs) % 2 ^ 64 := by
  induction txs with
  | nil =>
    intro i st hst
    simp only [recordLoop, presentSize_nil, Nat.add_zero]
    exact (Nat.mod_eq_of_lt hst).symm
  | cons slot rest ih =>
    intro i st hst
    simp only [recordLoop]
    cases slot with
    | none =>
      rw [ih (i + 1) _ (by simpa [recordStep] using hst)]
      simp [recordStep, presentSize_cons_none]
    | some tx =>
      rw [ih (i + 1) _ (by simpa [recordStep] using Nat.mod_lt _ (by norm_num))]
      simp only [recordStep, presentSize_cons_some]
      rw [Nat.add_mod, Nat.mod_mod, ← Nat.add_mod, Nat.add_assoc]

/-- The decode loop fills the slots after the ones already visited. -/
theorem decodeLoop_spec (dec : Bytes → Except String Transaction) (rest : List Bytes) :
    ∀ pre : List (Option Transaction),
      decodeLoop dec pre.length rest (pre ++ List.replicate rest.length none)
        = pre ++ rest.map (fun encTx => (dec encTx).toOption) := by
  induction rest with
  | nil => intro pre; simp [decodeLoop]
  | cons encTx rest ih =>
    intro pre
    simp only [decodeLoop, List.length_cons, List.replicate_succ, List.map_cons]
    cases hdec : dec encTx with
    | error err =>
      have h := ih (pre ++ [none])
      simp only [List.length_append, List.length_singleton, List.append_assoc,
        List.singleton_append] at h
      simpa [Except.toOption] using h
    | ok tx =>
      have h := ih (pre ++ [some tx])
      simp only [List.length_append, List.length_singleton, List.append_assoc,
        List.singleton_append] at h
      simpa [Except.toOption, List.set_append] using h

/-- The decode loop as a map: slot by slot, the decoded transaction or nil. -/
theorem decodeTransactions_eq_map (dec : Bytes → Except String Transaction)
    (raws : List Bytes) :
    decodeTransactions dec raws = raws.map (fun encTx => (dec encTx).toOption) := by
  have h := decodeLoop_spec dec raws []
  simpa [decodeTransactions] using h

/-- The events of a present slot `i` sit in the trace of `record` right after
the events of the slots before it. -/
theorem record_trace_at (b : Address) (gasUsed : Nat) (baseFee : Option Int)
    (txs : List (Option Transaction)) (i : Nat) (tx : Transaction)
    (h : txs[i]? = some (some tx)) :
    ∃ post, (record b gasUsed baseFee txs).trace
      = loopEvents b 0 (txs.take i) ++ txEvents (txTag b i tx) tx ++ post := by
  rw [record_trace, loopEvents_at b txs i tx h]
  exact ⟨_, List.append_assoc _ _ _⟩

/-- The conversion on a natural number whose quotient by `GWei` fits 64 bits. -/
theorem bigWeiToFloatGwei_natCast (n : Nat) (h : n < 2 ^ 64 * 10 ^ 9) :
    bigWeiToFloatGwei (n : Int)
      = ((n / 10 ^ 9 : Nat) : ℚ) + ((n % 10 ^ 9 : Nat) : ℚ) / 10 ^ 9 := by
  have hq : n / 10 ^ 9 < 2 ^ 64 := by
    apply Nat.div_lt_of_lt_mul
    rw [Nat.mul_comm]
    exact h
  have hr : n % 10 ^ 9 < 2 ^ 64 :=
    lt_trans (Nat.mod_lt n (by norm_num)) (by norm_num)
  unfold bigWeiToFloatGwei bigUint64 GWei
  simp only []
  rw [← Int.ofNat_tdiv, ← Int.ofNat_tmod, Int.natAbs_ofNat, Int.natAbs_ofNat]
  have e : (1000000000 : Nat) = 10 ^ 9 := by norm_num
  rw [e, Nat.mod_eq_of_lt hq, Nat.mod_eq_of_lt hr]
  norm_num

/-- Off index 0 no transaction is tagged `l1InfoTx`. -/
theorem txTag_ne_l1InfoTx (b : Address) (i : Nat) (tx : Transaction) (hi : i ≠ 0) :
    txTag b i tx ≠ l1InfoTx := by
  by_cases hd : tx.TxType = DepositTxType
  · rw [txTag, if_pos hd, if_neg hi]
    decide
  · rw [txTag, if_neg hd]
    cases tx.To with
    | none =>
      show contractDeployment ≠ l1InfoTx
      decide
    | some dst =>
      show (if dst = b then "op-inbox"
        else if dst = goerliBaseInbox then "base-inbox" else otherTx) ≠ l1InfoTx
      split_ifs <;> decide

theorem loopEvents_no_l1InfoTx (b : Address) (txs : List (Option Transaction)) :
    ∀ (i : Nat), i ≠ 0 → ∀ (s : Sink) (v : ℚ),
      Event.observeTagged s l1InfoTx v ∉ loopEvents b i txs := by
  induction txs with
  | nil => intro i _ s v; simp [loopEvents_nil]
  | cons slot rest ih =>
    intro i hi s v
    cases slot with
    | none =>
      rw [loopEvents_cons_none]
      exact ih (i + 1) (by omega) s v
    | some tx =>
      rw [loopEvents_cons_some, List.mem_append]
      rintro (hmem | hmem)
      · have hne := txTag_ne_l1InfoTx b i tx hi
        simp only [txEvents, List.mem_cons, List.mem_singleton, List.not_mem_nil, or_false,
          Event.observeTagged.injEq, false_or, reduceCtorEq] at hmem
        rcases hmem with ⟨_, h, _⟩ | ⟨_, h, _⟩
        · exact hne h.symm
        · exact hne h.symm
      · exact ih (i + 1) (by omega) s v hmem

/-- The events of the loop, slot by slot. -/
theorem loopEvents_eq_flatten (b : Address) (txs : List (Option Transaction)) :
    ∀ i : Nat, loopEvents b i txs
      = ((txs.enumFrom i).map (fun p =>
          match p.2 with
          | none => []
          | some tx => txEvents (txTag b p.1 tx) tx)).flatten := by
  induction txs with
  | nil => intro i; simp [loopEvents_nil]
  | cons slot rest ih =>
    intro i
    cases slot with
    | none => simp [loopEvents_cons_none, ih, List.enumFrom_cons]
    | some tx => simp [loopEvents_cons_some, ih, List.enumFrom_cons]

/-- On the range where the quotient fits 64 bits the conversion is the exact
quotient by `10 ^ 9`. -/
theorem bigWeiToFloatGwei_eq_div (n : Nat) (h : n < 2 ^ 64 * 10 ^ 9) :
    bigWeiToFloatGwei (n : Int) = (n : ℚ) / 10 ^ 9 := by
  rw [bigWeiToFloatGwei_natCast n h]
  have hdm : ((n / 10 ^ 9 : Nat) : ℚ) * 10 ^ 9 + ((n % 10 ^ 9 : Nat) : ℚ) = (n : ℚ) := by
    have h1 := Nat.div_add_mod n (10 ^ 9)
    rw [Nat.mul_comm] at h1
    have h2 := congrArg (Nat.cast : Nat → ℚ) h1
    rw [Nat.cast_add, Nat.cast_mul, Nat.cast_pow] at h2
    exact h2
  have hne : ((10 : ℚ) ^ 9) ≠ 0 := pow_ne_zero 9 (by decide)
  rw [← hdm, add_div, mul_div_assoc, div_self hne, mul_one]

/-- Operations on set sinks only are all performed. -/
theorem performOn_of_all {H HV CV G : Type} (bm : BlockMetrics H HV CV G)
    (trace : List Event) (h : trace.all (fun e => bm.isSet e.sink) = true) :
    performOn bm trace = (trace, false) := by
  induction trace with
  | nil => rfl
  | cons e rest ih =>
    rw [List.all_cons, Bool.and_eq_true] at h
    simp only [performOn, h.1, if_true, ih h.2]

/-- The block-level events of `record` with a non-nil base fee close the trace. -/
theorem record_trace_some (b : Address) (gasUsed : Nat) (v : Int)
    (txs : List (Option Transaction)) :
    (record b gasUsed (some v) txs).trace
      = loopEvents b 0 txs
        ++ [ Event.observe Sink.BodySizes
               ((recordLoop b 0 { bodySize := 0, emitted := [] } txs).bodySize : ℚ),
             Event.observe Sink.TransactionCounts (txs.length : ℚ),
             Event.observe Sink.GasUsed (float64OfUint64 gasUsed),
             Event.observe Sink.BaseFees (bigWeiToFloatGwei v),
             Event.set Sink.BaseFeeGauge (bigWeiToFloatGwei v) ] := by
  rw [record_trace]
  simp

/-- The quotient handed to `float64` when it fits 64 bits. -/
theorem bigUint64_quo (n : Nat) (h : n < 2 ^ 64 * 10 ^ 9) :
    bigUint64 (Int.tdiv (n : Int) (GWei : Int)) = n / 10 ^ 9 := by
  have hq : n / 10 ^ 9 < 2 ^ 64 := by
    apply Nat.div_lt_of_lt_mul
    rw [Nat.mul_comm]
    exact h
  unfold bigUint64 GWei
  rw [← Int.ofNat_tdiv, Int.natAbs_ofNat]
  have e : (1000000000 : Nat) = 10 ^ 9 := by norm_num
  rw [e, Nat.mod_eq_of_lt hq]

/-- The remainder handed to `float64`. -/
theorem bigUint64_rem (n : Nat) :
    bigUint64 (Int.tmod (n : Int) (GWei : Int)) = n % 10 ^ 9 := by
  have hr : n % 10 ^ 9 < 2 ^ 64 :=
    lt_trans (Nat.mod_lt n (by norm_num)) (by norm_num)
  unfold bigUint64 GWei
  rw [← Int.ofNat_tmod, Int.natAbs_ofNat]
  have e : (1000000000 : Nat) = 10 ^ 9 := by norm_num
  rw [e, Nat.mod_eq_of_lt hr]

/-- The fields that `NewBlockMetrics` sets: all but `TransactionGasLimit`. -/
theorem newBlockMetrics_isSet {H HV CV G : Type} (factory : Factory H HV CV G)
    (ns subsystem displayName : String) (s : Sink) :
    (NewBlockMetrics factory ns subsystem displayName).isSet s
      = decide (s ≠ Sink.TransactionGasLimit) := by
  cases s <;> rfl

/-- No operation of `record` goes to `TransactionGasLimit`. -/
theorem record_trace_sink (b : Address) (gasUsed : Nat) (baseFee : Option Int)
    (txs : List (Option Transaction)) (e : Event)
    (he : e ∈ (record b gasUsed baseFee txs).trace) :
    e.sink ≠ Sink.TransactionGasLimit := by
  rw [record_trace, List.mem_append] at he
  rcases he with he | he
  · rcases loopEvents_sink b txs 0 e he with h | h | h | h | h | h <;> rw [h] <;> decide
  · cases baseFee with
    | none =>
      simp only [List.append_nil, List.mem_cons, List.mem_singleton, List.not_mem_nil,
        or_false] at he
      rcases he with h | h | h <;> subst h <;> simp [Event.sink]
    | some v =>
      simp only [List.mem_append, List.mem_cons, List.mem_singleton, List.not_mem_nil,
        or_false] at he
      rcases he with (h | h | h) | (h | h) <;> subst h <;> simp [Event.sink]

/-- Every operation of `record` goes to a sink that `NewBlockMetrics` set. -/
theorem record_trace_all_set {H HV CV G : Type} (factory : Factory H HV CV G)
    (ns subsystem displayName : String) (b : Address) (gasUsed : Nat)
    (baseFee : Option Int) (txs : List (Option Transaction)) :
    (record b gasUsed baseFee txs).trace.all
        (fun e => (NewBlockMetrics factory ns subsystem displayName).isSet e.sink) = true := by
  rw [List.all_eq_true]
  intro e he
  rw [newBlockMetrics_isSet]
  exact decide_eq_true (record_trace_sink b gasUsed baseFee txs e he)

/-- On the struct that `NewBlockMetrics` builds, `record` runs as modelled
without its receiver. -/
theorem recordOn_newBlockMetrics {H HV CV G : Type} (factory : Factory H HV CV G)
    (ns subsystem displayName : String) (b : Address) (gasUsed : Nat)
    (baseFee : Option Int) (txs : List (Option Transaction)) :
    recordOn (NewBlockMetrics factory ns subsystem displayName) b gasUsed baseFee txs
      = record b gasUsed baseFee txs := by
  unfold recordOn
  simp only []
  rw [performOn_of_all _ _
    (record_trace_all_set factory ns subsystem displayName b gasUsed baseFee txs)]
  simp

/-- Up to `2 ^ 53` the conversion to `float64` is exact. -/
theorem float64OfUint64_of_le (n : Nat) (h : n ≤ 2 ^ 53) : float64OfUint64 n = (n : ℚ) := by
  rcases Nat.lt_or_eq_of_le h with hlt | heq
  · unfold float64OfUint64
    rw [if_pos hlt]
  · subst heq
    decide

/-- On a non-nil argument the pointer version of `bigWeiToFloatGwei` does not
panic: the divisor `bigGweiUnit` is not zero. -/
theorem bigWeiToFloatGweiPtr_some (v : Int) :
    bigWeiToFloatGweiPtr (some v) = some (bigWeiToFloatGwei v) := by
  have hne : ((GWei : Nat) : Int) ≠ 0 := by decide
  simp only [bigWeiToFloatGweiPtr, bigQuoRem, bigGweiUnit, if_neg hne]
  rfl

/-- A call on a sink other than `TransactionGasLimit` goes through on the struct
that `NewBlockMetrics` builds. -/
theorem callSink_newBlockMetrics {H HV CV G : Type} (factory : Factory H HV CV G)
    (ns subsystem displayName : String) (tr : List Event) (e : Event)
    (he : e.sink ≠ Sink.TransactionGasLimit) :
    callSink (NewBlockMetrics factory ns subsystem displayName)
        { trace := tr, panicked := false } e
      = { trace := tr ++ [e], panicked := false } := by
  have hset : (NewBlockMetrics factory ns subsystem displayName).isSet e.sink = true := by
    rw [newBlockMetrics_isSet]
    exact decide_eq_true he
  simp [callSink, hset]

theorem observeGwei_newBlockMetrics {H HV CV G : Type} (factory : Factory H HV CV G)
    (ns subsystem displayName : String) (tr : List Event) (s : Sink) (v : Int)
    (hs : s ≠ Sink.TransactionGasLimit) :
    observeGwei (NewBlockMetrics factory ns subsystem displayName)
        { trace := tr, panicked := false } s (some v)
      = { trace := tr ++ [Event.observe s (bigWeiToFloatGwei v)], panicked := false } := by
  unfold observeGwei
  simp only [Bool.false_eq_true, if_false, bigWeiToFloatGweiPtr_some]
  exact callSink_newBlockMetrics factory ns subsystem displayName tr _ hs

/-- One checked iteration on the built struct is the iteration of `record`. -/
theorem recordStepChecked_newBlockMetrics {H HV CV G : Type} (factory : Factory H HV CV G)
    (ns subsystem displayName : String) (b : Address) (bs : Nat) (tr : List Event)
    (i : Nat) (slot : Option Transaction) :
    recordStepChecked (NewBlockMetrics factory ns subsystem displayName) b
        { bodySize := bs, run := { trace := tr, panicked := false } } i slot
      = { bodySize := (recordStep b { bodySize := bs, emitted := tr } i slot).bodySize
          run := { trace := (recordStep b { bodySize := bs, emitted := tr } i slot).emitted
                   panicked := false } } := by
  cases slot with
  | none => simp [recordStepChecked, recordStep]
  | some tx =>
    simp only [recordStepChecked, recordStep, Bool.false_eq_true, if_false]
    rw [callSink_newBlockMetrics factory ns subsystem displayName _ _ (by simp [Event.sink]),
      callSink_newBlockMetrics factory ns subsystem displayName _ _ (by simp [Event.sink]),
      callSink_newBlockMetrics factory ns subsystem displayName _ _ (by simp [Event.sink]),
      callSink_newBlockMetrics factory ns subsystem displayName _ _ (by simp [Event.sink]),
      observeGwei_newBlockMetrics factory ns subsystem displayName _ _ _ (by simp [Event.sink]),
      observeGwei_newBlockMetrics factory ns subsystem displayName _ _ _ (by simp [Event.sink])]
    simp [txEvents]

/-- The checked loop on the built struct is the loop of `record`. -/
theorem recordLoopChecked_newBlockMetrics {H HV CV G : Type} (factory : Factory H HV CV G)
    (ns subsystem displayName : String) (b : Address) (txs : List (Option Transaction)) :
    ∀ (i bs : Nat) (tr : List Event),
      recordLoopChecked (NewBlockMetrics factory ns subsystem displayName) b i
          { bodySize := bs, run := { trace := tr, panicked := false } } txs
        = { bodySize := (recordLoop b i { bodySize := bs, emitted := tr } txs).bodySize
            run := { trace := (recordLoop b i { bodySize := bs, emitted := tr } txs).emitted
                     panicked := false } } := by
  induction txs with
  | nil => intro i bs tr; rfl
  | cons slot rest ih =>
    intro i bs tr
    simp only [recordLoopChecked, recordLoop]
    rw [recordStepChecked_newBlockMetrics, ih]

/-- On the struct that `NewBlockMetrics` builds, the checked `record` is
`record`: no sink call panics, and only a nil base fee does. -/
theorem recordChecked_newBlockMetrics {H HV CV G : Type} (factory : Factory H HV CV G)
    (ns subsystem displayName : String) (b : Address) (gasUsed : Nat)
    (baseFee : Option Int) (txs : List (Option Transaction)) :
    recordChecked (NewBlockMetrics factory ns subsystem displayName) b gasUsed baseFee txs
      = record b gasUsed baseFee txs := by
  unfold recordChecked record
  simp only []
  rw [recordLoopChecked_newBlockMetrics,
    callSink_newBlockMetrics factory ns subsystem displayName _ _ (by simp [Event.sink]),
    callSink_newBlockMetrics factory ns subsystem displayName _ _ (by simp [Event.sink]),
    callSink_newBlockMetrics factory ns subsystem displayName _ _ (by simp [Event.sink])]
  cases baseFee with
  | none => simp [bigWeiToFloatGweiPtr, bigQuoRem]
  | some v =>
    simp only [Bool.false_eq_true, if_false, bigWeiToFloatGweiPtr_some]
    rw [callSink_newBlockMetrics factory ns subsystem displayName _ _ (by simp [Event.sink]),
      callSink_newBlockMetrics factory ns subsystem displayName _ _ (by simp [Event.sink])]
    simp

/-- The assignment `txs[i] = &tx` of the decode loop stays within the slice. -/
theorem decodeLoopChecked_eq (dec : Bytes → Except String Transaction) (rest : List Bytes) :
    ∀ (i : Nat) (txs : List (Option Transaction)), i + rest.length ≤ txs.length →
      decodeLoopChecked dec i rest txs = some (decodeLoop dec i rest txs) := by
  induction rest with
  | nil => intro i txs _; rfl
  | cons encTx rest ih =>
    intro i txs h
    simp only [List.length_cons] at h
    simp only [decodeLoopChecked, decodeLoop]
    cases dec encTx with
    | error err => exact ih (i + 1) txs (by omega)
    | ok tx =>
      have hi : i < txs.length := by omega
      simp only [if_pos hi]
      exact ih (i + 1) (txs.set i (some tx)) (by rw [List.length_set]; omega)

/-- On the built struct and a non-nil payload, the checked
`RecordExecutionPayload` is `RecordExecutionPayload`. -/
theorem recordExecutionPayloadChecked_newBlockMetrics {H HV CV G : Type}
    (factory : Factory H HV CV G) (ns subsystem displayName : String) (b : Address)
    (dec : Bytes → Except String Transaction) (payload : ExecutionPayload) :
    RecordExecutionPayloadChecked (NewBlockMetrics factory ns subsystem displayName) b dec
        (some payload)
      = RecordExecutionPayload b dec payload := by
  simp only [RecordExecutionPayloadChecked, RecordExecutionPayload, decodeTransactions]
  rw [decodeLoopChecked_eq dec payload.Transactions 0 _ (by simp)]
  simp only []
  rw [recordChecked_newBlockMetrics]

/-! ## The claims -/

/-- C1 (as amended): for every gas used, base fee and transaction sequence, `record`
observes into the transaction-count histogram exactly once, and the value is
the length of the sequence, absent slots included. -/
theorem record_transactionCounts_length (b : Address) (gasUsed : Nat) (baseFee : Option Int)
    (txs : List (Option Transaction)) :
    (record b gasUsed baseFee txs).trace.filter
        (fun e => decide (e.sink = Sink.TransactionCounts))
      = [Event.observe Sink.TransactionCounts (txs.length : ℚ)] := by
  rw [record_trace, List.filter_append,
    loopEvents_filter_block b txs 0 Sink.TransactionCounts (by decide) (by decide)
      (by decide) (by decide) (by decide) (by decide)]
  cases baseFee <;> simp [List.filter_cons, Event.sink]

/-- C1 (counterexample): on the one-slot sequence whose slot is absent, `record`
observes the transaction count 1, while the number of present transactions
is 0. -/
theorem record_transactionCounts_absent_slot :
    (record sampleBatchInbox 0 (some 0) [none]).trace.filter
        (fun e => decide (e.sink = Sink.TransactionCounts))
      = [Event.observe Sink.TransactionCounts 1]
    ∧ (record sampleBatchInbox 0 (some 0) [none]).trace.filter
        (fun e => decide (e.sink = Sink.TransactionCounts))
      ≠ [Event.observe Sink.TransactionCounts
          ((([none] : List (Option Transaction)).reduceOption.length : Nat) : ℚ)] := by
  decide

/-- C2: a present deposit transaction at index `i` is tagged `l1InfoTx` when
`i = 0` and `userDepositTx` otherwise, whatever its destination; its events
carry that tag and follow the events of the slots before it. -/
theorem record_tags_deposit (b : Address) (gasUsed : Nat) (baseFee : Option Int)
    (txs : List (Option Transaction)) (i : Nat) (tx : Transaction)
    (hslot : txs[i]? = some (some tx)) (hdep : tx.TxType = DepositTxType) :
    txTag b i tx = (if i = 0 then l1InfoTx else userDepositTx)
    ∧ ∃ post, (record b gasUsed baseFee txs).trace
        = loopEvents b 0 (txs.take i)
          ++ txEvents (if i = 0 then l1InfoTx else userDepositTx) tx ++ post := by
  have htag : txTag b i tx = (if i = 0 then l1InfoTx else userDepositTx) := by
    simp [txTag, hdep]
  refine ⟨htag, ?_⟩
  rw [← htag]
  exact record_trace_at b gasUsed baseFee txs i tx hslot

/-- C2 (witness): a deposit sent to `goerliBaseInbox`, at index 1 behind another
deposit. -/
theorem record_tags_deposit_witness :
    [some sampleDeposit, some sampleDeposit][1]? = some (some sampleDeposit)
    ∧ sampleDeposit.TxType = DepositTxType
    ∧ txTag sampleBatchInbox 1 sampleDeposit = (if 1 = 0 then l1InfoTx else userDepositTx)
    ∧ ∃ post, (record sampleBatchInbox 0 (some 0)
          [some sampleDeposit, some sampleDeposit]).trace
        = loopEvents sampleBatchInbox 0 ([some sampleDeposit, some sampleDeposit].take 1)
          ++ txEvents (if 1 = 0 then l1InfoTx else userDepositTx) sampleDeposit ++ post :=
  ⟨by decide, by decide,
    record_tags_deposit sampleBatchInbox 0 (some 0) [some sampleDeposit, some sampleDeposit] 1
      sampleDeposit (by decide) (by decide)⟩

/-- C3: a present non-deposit transaction whose destination is the Goerli
batch-inbox address or `goerliBaseInbox` is tagged with that inbox's tag
("op-inbox" for the batch inbox, else "base-inbox"), at any index, and with
neither `contractDeployment` nor `otherTx`. -/
theorem record_tags_inbox (b : Address) (gasUsed : Nat) (baseFee : Option Int)
    (txs : List (Option Transaction)) (i : Nat) (tx : Transaction) (dst : Address)
    (hslot : txs[i]? = some (some tx)) (hkind : tx.TxType ≠ DepositTxType)
    (hto : tx.To = some dst) (hinbox : dst = b ∨ dst = goerliBaseInbox) :
    txTag b i tx = (if dst = b then "op-inbox" else "base-inbox")
    ∧ txTag b i tx ≠ contractDeployment ∧ txTag b i tx ≠ otherTx
    ∧ ∃ post, (record b gasUsed baseFee txs).trace
        = loopEvents b 0 (txs.take i)
          ++ txEvents (if dst = b then "op-inbox" else "base-inbox") tx ++ post := by
  have htag : txTag b i tx = (if dst = b then "op-inbox" else "base-inbox") := by
    by_cases hb : dst = b
    · simp [txTag, hkind, hto, hb]
    · have hg : dst = goerliBaseInbox := hinbox.resolve_left hb
      simp [txTag, hkind, hto, hb, hg]
  refine ⟨htag, ?_, ?_, ?_⟩
  · rw [htag]; split <;> decide
  · rw [htag]; split <;> decide
  · rw [← htag]
    exact record_trace_at b gasUsed baseFee txs i tx hslot

/-- C3 (witness): a dynamic-fee transaction to `goerliBaseInbox` at index 0. -/
theorem record_tags_inbox_witness :
    [some (sampleDynamicFee (some goerliBaseInbox))][0]?
      = some (some (sampleDynamicFee (some goerliBaseInbox)))
    ∧ (sampleDynamicFee (some goerliBaseInbox)).TxType ≠ DepositTxType
    ∧ (sampleDynamicFee (some goerliBaseInbox)).To = some goerliBaseInbox
    ∧ (goerliBaseInbox = sampleBatchInbox ∨ goerliBaseInbox = goerliBaseInbox)
    ∧ txTag sampleBatchInbox 0 (sampleDynamicFee (some goerliBaseInbox)) = "base-inbox" :=
  ⟨by decide, by decide, by decide, by decide,
    (record_tags_inbox sampleBatchInbox 0 (some 0)
      [some (sampleDynamicFee (some goerliBaseInbox))] 0
      (sampleDynamicFee (some goerliBaseInbox)) goerliBaseInbox
      (by decide) (by decide) (by decide) (by decide)).1.trans (by decide)⟩

/-- C4: a present non-deposit transaction with a nil destination is tagged
`contractDeployment`, at any index; among its events there is exactly one
size observation and exactly one call-data observation, both under that tag. -/
theorem record_tags_contractDeployment (b : Address) (gasUsed : Nat) (baseFee : Option Int)
    (txs : List (Option Transaction)) (i : Nat) (tx : Transaction)
    (hslot : txs[i]? = some (some tx)) (hkind : tx.TxType ≠ DepositTxType)
    (hto : tx.To = none) :
    txTag b i tx = contractDeployment
    ∧ (∃ post, (record b gasUsed baseFee txs).trace
        = loopEvents b 0 (txs.take i) ++ txEvents contractDeployment tx ++ post)
    ∧ (txEvents contractDeployment tx).filter
          (fun e => decide (e.sink = Sink.TransactionSize))
        = [Event.observeTagged Sink.TransactionSize contractDeployment (tx.Size : ℚ)]
    ∧ (txEvents contractDeployment tx).filter
          (fun e => decide (e.sink = Sink.TransactionCallData))
        = [Event.observeTagged Sink.TransactionCallData contractDeployment
            (tx.Data.length : ℚ)] := by
  have htag : txTag b i tx = contractDeployment := by
    simp [txTag, hkind, hto]
  refine ⟨htag, ?_, ?_, ?_⟩
  · rw [← htag]
    exact record_trace_at b gasUsed baseFee txs i tx hslot
  · simp [txEvents, List.filter_cons, Event.sink]
  · simp [txEvents, List.filter_cons, Event.sink]

/-- C4 (witness): a dynamic-fee contract creation at index 0. -/
theorem record_tags_contractDeployment_witness :
    [some (sampleDynamicFee none)][0]? = some (some (sampleDynamicFee none))
    ∧ (sampleDynamicFee none).TxType ≠ DepositTxType
    ∧ (sampleDynamicFee none).To = none
    ∧ txTag sampleBatchInbox 0 (sampleDynamicFee none) = contractDeployment :=
  ⟨by decide, by decide, by decide,
    (record_tags_contractDeployment sampleBatchInbox 0 (some 0)
      [some (sampleDynamicFee none)] 0 (sampleDynamicFee none)
      (by decide) (by decide) (by decide)).1⟩

/-- C5: a present non-deposit transaction whose destination is present and is
neither inbox address is tagged `otherTx`; and for every present transaction
the tag of `record` is the one tag the rule chain of the specification picks
(kind, then inbox address, then absent destination, then default). -/
theorem record_tags_other (b : Address) (gasUsed : Nat) (baseFee : Option Int)
    (txs : List (Option Transaction)) (i : Nat) (tx : Transaction)
    (hslot : txs[i]? = some (some tx)) :
    (∀ dst : Address, tx.TxType ≠ DepositTxType → tx.To = some dst → dst ≠ b →
        dst ≠ goerliBaseInbox → txTag b i tx = otherTx)
    ∧ txTag b i tx = classify (inboxAddresses b) i tx
    ∧ ∃ post, (record b gasUsed baseFee txs).trace
        = loopEvents b 0 (txs.take i)
          ++ txEvents (classify (inboxAddresses b) i tx) tx ++ post := by
  have hcls : txTag b i tx = classify (inboxAddresses b) i tx := by
    unfold txTag classify inboxAddresses
    by_cases hdep : tx.TxType = DepositTxType
    · simp [hdep]
    · cases hto : tx.To with
      | none => simp [hdep]
      | some dst =>
        by_cases hb : dst = b
        · simp [hdep, List.lookup, hb]
        · by_cases hg : dst = goerliBaseInbox
          · subst hg
            have hb' : (goerliBaseInbox == b) = false := by simpa using hb
            simp [hdep, List.lookup, hb, hb']
          · have hb' : (dst == b) = false := by simpa using hb
            have hg' : (dst == goerliBaseInbox) = false := by simpa using hg
            simp [hdep, List.lookup, hb, hg, hb', hg']
  refine ⟨?_, hcls, ?_⟩
  · intro dst hkind hto hb hg
    simp [txTag, hkind, hto, hb, hg]
  · rw [← hcls]
    exact record_trace_at b gasUsed baseFee txs i tx hslot

/-- C5 (witness): a dynamic-fee transaction to an address that is no inbox. -/
theorem record_tags_other_witness :
    [none, some (sampleDynamicFee (some 5))][1]? = some (some (sampleDynamicFee (some 5)))
    ∧ txTag sampleBatchInbox 1 (sampleDynamicFee (some 5)) = otherTx :=
  ⟨by decide,
    (record_tags_other sampleBatchInbox 0 (some 0) [none, some (sampleDynamicFee (some 5))] 1
      (sampleDynamicFee (some 5)) (by decide)).1 5 (by decide) (by decide) (by decide)
      (by decide)⟩

/-- C6 (as amended): for every wei value `v` with `0 ≤ v < 2 ^ 64 * 10 ^ 9`,
`bigWeiToFloatGwei v` is `float(v div 10^9) + float(v mod 10^9) / 10^9`, so
that in exact arithmetic `bigWeiToFloatGwei v * 10^9 = v`; and
`bigWeiToFloatGwei 0 = 0`. -/
theorem bigWeiToFloatGwei_exact (v : Int) (h0 : 0 ≤ v) (hfit : v < 2 ^ 64 * 10 ^ 9) :
    bigWeiToFloatGwei v = ((v / 10 ^ 9 : Int) : ℚ) + ((v % 10 ^ 9 : Int) : ℚ) / 10 ^ 9
    ∧ bigWeiToFloatGwei v * 10 ^ 9 = (v : ℚ)
    ∧ bigWeiToFloatGwei 0 = 0 := by
  obtain ⟨n, rfl⟩ := Int.eq_ofNat_of_zero_le h0
  have hn : n < 2 ^ 64 * 10 ^ 9 := by exact_mod_cast hfit
  have hval := bigWeiToFloatGwei_natCast n hn
  have hzero := bigWeiToFloatGwei_natCast 0 (by norm_num)
  have hq : ((n : Int) / 10 ^ 9) = ((n / 10 ^ 9 : Nat) : Int) := by
    rw [Int.ofNat_ediv]; rfl
  have hr : ((n : Int) % 10 ^ 9) = ((n % 10 ^ 9 : Nat) : Int) := by
    rw [Int.ofNat_emod]; rfl
  refine ⟨?_, ?_, ?_⟩
  · rw [hval, hq, hr, Int.cast_natCast, Int.cast_natCast]
  · rw [hval]
    have hdm : ((n / 10 ^ 9 : Nat) : ℚ) * 10 ^ 9 + ((n % 10 ^ 9 : Nat) : ℚ) = (n : ℚ) := by
      have h := Nat.div_add_mod n (10 ^ 9)
      rw [Nat.mul_comm] at h
      have h2 := congrArg (Nat.cast : Nat → ℚ) h
      rw [Nat.cast_add, Nat.cast_mul, Nat.cast_pow] at h2
      exact h2
    have hne : ((10 : ℚ) ^ 9) ≠ 0 := pow_ne_zero 9 (by decide)
    rw [add_mul, div_mul_cancel₀ _ hne, hdm, Int.cast_natCast]
  · simpa using hzero

/-- C6 (witness): the value 1,500,000,000 wei. -/
theorem bigWeiToFloatGwei_exact_witness :
    (0 : Int) ≤ 1500000000 ∧ (1500000000 : Int) < 2 ^ 64 * 10 ^ 9
    ∧ bigWeiToFloatGwei 1500000000 * 10 ^ 9 = ((1500000000 : Int) : ℚ) :=
  ⟨by decide, by decide,
    (bigWeiToFloatGwei_exact 1500000000 (by decide) (by decide)).2.1⟩

/-- C6 (counterexample): at `v = 2 ^ 64 * 10 ^ 9` the quotient does not fit 64
bits; `bigWeiToFloatGwei v` is 0, not `float(v div 10^9) + float(v mod 10^9) / 10^9`,
and `bigWeiToFloatGwei v * 10^9` is not `v`. -/
theorem bigWeiToFloatGwei_wraps :
    bigWeiToFloatGwei (2 ^ 64 * 10 ^ 9) = 0
    ∧ bigWeiToFloatGwei (2 ^ 64 * 10 ^ 9)
        ≠ (((2 ^ 64 * 10 ^ 9 : Int) / 10 ^ 9 : Int) : ℚ)
          + (((2 ^ 64 * 10 ^ 9 : Int) % 10 ^ 9 : Int) : ℚ) / 10 ^ 9
    ∧ bigWeiToFloatGwei (2 ^ 64 * 10 ^ 9) * 10 ^ 9 ≠ ((2 ^ 64 * 10 ^ 9 : Int) : ℚ) := by
  have h : bigWeiToFloatGwei (2 ^ 64 * 10 ^ 9) = 0 := by
    have e1 : Int.tdiv (2 ^ 64 * 10 ^ 9) ((1000000000 : Nat) : Int) = 2 ^ 64 := by decide
    have e2 : Int.tmod (2 ^ 64 * 10 ^ 9) ((1000000000 : Nat) : Int) = 0 := by decide
    unfold bigWeiToFloatGwei bigUint64 GWei
    simp only []
    rw [e1, e2]
    norm_num
  refine ⟨h, ?_, ?_⟩
  · rw [h]; norm_num
  · rw [h]; norm_num

/-- C7: the decode loop of `RecordExecutionPayload` yields a sequence of the
length of the raw one whose slot `i` is, for every `i`, the transaction decoded
from raw entry `i`, or nil when that decode fails; `record` runs on exactly
that sequence and the call returns without a panic.  With the second of three
entries malformed, the second slot is nil and the other two are decoded. -/
theorem recordExecutionPayload_decodes_each_slot (b : Address)
    (dec : Bytes → Except String Transaction) (payload : ExecutionPayload) :
    (decodeTransactions dec payload.Transactions).length = payload.Transactions.length
    ∧ (∀ i : Nat, (decodeTransactions dec payload.Transactions)[i]?
        = payload.Transactions[i]?.map (fun encTx =>
            match dec encTx with
            | .ok tx => some tx
            | .error _ => none))
    ∧ RecordExecutionPayload b dec payload
        = record b payload.GasUsed (some (payload.BaseFeePerGas : Int))
            (payload.Transactions.map (fun encTx =>
              match dec encTx with
              | .ok tx => some tx
              | .error _ => none))
    ∧ (RecordExecutionPayload b dec payload).panicked = false
    ∧ decodeTransactions sampleUnmarshal [[1], [], [2]]
        = [some sampleDeposit, none, some sampleDeposit] := by
  have hfun : (fun encTx => (dec encTx).toOption)
      = (fun encTx => match dec encTx with
          | .ok tx => some tx
          | .error _ => none) := by
    funext encTx
    cases dec encTx <;> rfl
  have hmap := decodeTransactions_eq_map dec payload.Transactions
  rw [hfun] at hmap
  refine ⟨?_, ?_, ?_, ?_, ?_⟩
  · rw [hmap, List.length_map]
  · intro i
    rw [hmap, List.getElem?_map]
  · simp only [RecordExecutionPayload, hmap]
  · simp [RecordExecutionPayload, record]
  · decide

/-- C8: when the sizes of the present transactions add up within `uint64`,
`record` observes into the body-size histogram exactly once, and the value is
the sum of the sizes of the present transactions; absent slots add nothing. -/
theorem record_bodySizes_sum (b : Address) (gasUsed : Nat) (baseFee : Option Int)
    (txs : List (Option Transaction))
    (hfit : (txs.reduceOption.map Transaction.Size).sum < 2 ^ 64) :
    (record b gasUsed baseFee txs).trace.filter (fun e => decide (e.sink = Sink.BodySizes))
      = [Event.observe Sink.BodySizes
          (((txs.reduceOption.map Transaction.Size).sum : Nat) : ℚ)] := by
  have hbody := recordLoop_bodySize b txs 0 { bodySize := 0, emitted := [] } (by norm_num)
  simp only [Nat.zero_add, presentSize] at hbody
  rw [Nat.mod_eq_of_lt hfit] at hbody
  rw [record_trace, List.filter_append,
    loopEvents_filter_block b txs 0 Sink.BodySizes (by decide) (by decide)
      (by decide) (by decide) (by decide) (by decide), hbody]
  cases baseFee <;> simp [List.filter_cons, Event.sink]

/-- C8 (witness): two present transactions around an absent slot. -/
theorem record_bodySizes_sum_witness :
    (([some sampleDeposit, none, some (sampleDynamicFee none)].reduceOption.map
        Transaction.Size).sum < 2 ^ 64)
    ∧ (record sampleBatchInbox 0 (some 0)
          [some sampleDeposit, none, some (sampleDynamicFee none)]).trace.filter
          (fun e => decide (e.sink = Sink.BodySizes))
        = [Event.observe Sink.BodySizes
            ((([some sampleDeposit, none, some (sampleDynamicFee none)].reduceOption.map
              Transaction.Size).sum : Nat) : ℚ)] :=
  ⟨by decide,
    record_bodySizes_sum sampleBatchInbox 0 (some 0)
      [some sampleDeposit, none, some (sampleDynamicFee none)] (by decide)⟩

/-- C9: when raw entry 0 of an execution payload fails to decode and raw entry
`k` decodes to a deposit transaction, then `k ≥ 1`, the deposit is tagged
`userDepositTx` (its index is the one in the raw sequence), and no event of the
whole call carries the tag `l1InfoTx`. -/
theorem recordExecutionPayload_absent_first_slot (b : Address)
    (dec : Bytes → Except String Transaction) (payload : ExecutionPayload)
    (raw0 : Bytes) (err : String) (k : Nat) (raw : Bytes) (tx : Transaction)
    (h0 : payload.Transactions[0]? = some raw0) (herr : dec raw0 = .error err)
    (hk : payload.Transactions[k]? = some raw) (hok : dec raw = .ok tx)
    (hdep : tx.TxType = DepositTxType) :
    1 ≤ k
    ∧ txTag b k tx = userDepositTx
    ∧ (∃ post, (RecordExecutionPayload b dec payload).trace
        = loopEvents b 0 ((decodeTransactions dec payload.Transactions).take k)
          ++ txEvents userDepositTx tx ++ post)
    ∧ ∀ (s : Sink) (v : ℚ),
        Event.observeTagged s l1InfoTx v ∉ (RecordExecutionPayload b dec payload).trace := by
  have hmap := decodeTransactions_eq_map dec payload.Transactions
  have hslot0 : (decodeTransactions dec payload.Transactions)[0]? = some none := by
    rw [hmap, List.getElem?_map, h0]
    simp [herr, Except.toOption]
  have hslotk : (decodeTransactions dec payload.Transactions)[k]? = some (some tx) := by
    rw [hmap, List.getElem?_map, hk]
    simp [hok, Except.toOption]
  have hk1 : k ≠ 0 := by
    intro hk0
    rw [hk0, hslot0] at hslotk
    cases hslotk
  have htag : txTag b k tx = userDepositTx := by
    simp [txTag, hdep, hk1]
  refine ⟨by omega, htag, ?_, ?_⟩
  · rw [← htag]
    exact record_trace_at b payload.GasUsed (some (payload.BaseFeePerGas : Int))
      (decodeTransactions dec payload.Transactions) k tx hslotk
  · intro s v
    obtain ⟨rest, hrest⟩ : ∃ rest, decodeTransactions dec payload.Transactions = none :: rest := by
      cases hd : decodeTransactions dec payload.Transactions with
      | nil => rw [hd] at hslot0; cases hslot0
      | cons slot rest =>
        rw [hd] at hslot0
        simp only [List.getElem?_cons_zero, Option.some.injEq] at hslot0
        exact ⟨rest, by rw [hslot0]⟩
    simp only [RecordExecutionPayload]
    rw [record_trace, hrest, loopEvents_cons_none, List.mem_append]
    rintro (hmem | hmem)
    · exact loopEvents_no_l1InfoTx b rest 1 (by decide) s v hmem
    · simp at hmem

/-- C9 (witness): a payload of two raw entries, the first malformed, the second
a deposit. -/
theorem recordExecutionPayload_absent_first_slot_witness :
    ([[], [1]] : List Bytes)[0]? = some []
    ∧ sampleUnmarshal [] = .error "typed transaction too short"
    ∧ ([[], [1]] : List Bytes)[1]? = some [1]
    ∧ sampleUnmarshal [1] = .ok sampleDeposit
    ∧ sampleDeposit.TxType = DepositTxType
    ∧ txTag sampleBatchInbox 1 sampleDeposit = userDepositTx :=
  ⟨by decide, rfl, by decide, rfl, by decide,
    (recordExecutionPayload_absent_first_slot sampleBatchInbox sampleUnmarshal
      { GasUsed := 21000, BaseFeePerGas := 7, Transactions := [[], [1]] }
      [] "typed transaction too short" 1 [1] sampleDeposit
      (by decide) rfl (by decide) rfl (by decide)).2.1⟩

/-- C10: the trace of `record` is, slot by slot in order, nothing for an absent
slot and for a present transaction one size and one call-data observation under
its tag, one nonce observation, one increment of the type counter at the
decimal string of its type, one priority-fee and one max-fee observation (the
gwei conversions), followed by block-level events only.  The block [deposit,
deposit, dynamic-fee transaction to the batch inbox] yields the tags `l1InfoTx`,
`userDepositTx`, "op-inbox" and the type labels "126", "126", "2". -/
theorem record_events_per_transaction :
    (∀ (b : Address) (gasUsed : Nat) (baseFee : Option Int) (txs : List (Option Transaction)),
      ∃ block, (record b gasUsed baseFee txs).trace
          = (txs.enum.map (fun p =>
              match p.2 with
              | none => []
              | some tx =>
                [ Event.observeTagged Sink.TransactionSize (txTag b p.1 tx) (tx.Size : ℚ),
                  Event.observeTagged Sink.TransactionCallData (txTag b p.1 tx)
                    (tx.Data.length : ℚ),
                  Event.observe Sink.TransactionNonce (tx.Nonce : ℚ),
                  Event.inc Sink.TransactionType (Nat.repr tx.TxType),
                  Event.observe Sink.TransactionPriorityFee (bigWeiToFloatGwei tx.GasTipCap),
                  Event.observe Sink.TransactionMaxFee (bigWeiToFloatGwei tx.GasFeeCap) ])).flatten
            ++ block
        ∧ ∀ e ∈ block, e.sink = Sink.BodySizes ∨ e.sink = Sink.TransactionCounts
            ∨ e.sink = Sink.GasUsed ∨ e.sink = Sink.BaseFees ∨ e.sink = Sink.BaseFeeGauge)
    ∧ (record sampleBatchInbox 0 (some 0)
        [some sampleDeposit, some sampleDeposit,
          some (sampleDynamicFee (some sampleBatchInbox))]).trace
      = [ Event.observeTagged Sink.TransactionSize l1InfoTx 200,
          Event.observeTagged Sink.TransactionCallData l1InfoTx 3,
          Event.observe Sink.TransactionNonce 0,
          Event.inc Sink.TransactionType "126",
          Event.observe Sink.TransactionPriorityFee 0,
          Event.observe Sink.TransactionMaxFee 0,
          Event.observeTagged Sink.TransactionSize userDepositTx 200,
          Event.observeTagged Sink.TransactionCallData userDepositTx 3,
          Event.observe Sink.TransactionNonce 0,
          Event.inc Sink.TransactionType "126",
          Event.observe Sink.TransactionPriorityFee 0,
          Event.observe Sink.TransactionMaxFee 0,
          Event.observeTagged Sink.TransactionSize "op-inbox" 120,
          Event.observeTagged Sink.TransactionCallData "op-inbox" 2,
          Event.observe Sink.TransactionNonce 9,
          Event.inc Sink.TransactionType "2",
          Event.observe Sink.TransactionPriorityFee (3 / 2),
          Event.observe Sink.TransactionMaxFee 30,
          Event.observe Sink.BodySizes 520,
          Event.observe Sink.TransactionCounts 3,
          Event.observe Sink.GasUsed 0,
          Event.observe Sink.BaseFees 0,
          Event.set Sink.BaseFeeGauge 0 ] := by
  refine ⟨?_, ?_⟩
  · intro b gasUsed baseFee txs
    rw [record_trace, loopEvents_eq_flatten]
    refine ⟨_, rfl, ?_⟩
    intro e he
    cases baseFee with
    | none =>
      simp only [List.append_nil, List.mem_cons, List.mem_singleton, List.not_mem_nil,
        or_false] at he
      rcases he with h | h | h <;> subst h <;> simp [Event.sink]
    | some v =>
      simp only [List.mem_append, List.mem_cons, List.mem_singleton, List.not_mem_nil,
        or_false] at he
      rcases he with (h | h | h) | (h | h) <;> subst h <;> simp [Event.sink]
  · have hzero : bigWeiToFloatGwei 0 = 0 := by
      have h := bigWeiToFloatGwei_natCast 0 (by norm_num)
      simpa using h
    have htip : bigWeiToFloatGwei 1500000000 = 3 / 2 := by
      have h := bigWeiToFloatGwei_natCast 1500000000 (by norm_num)
      rw [show ((1500000000 : Nat) : Int) = 1500000000 from rfl] at h
      rw [h]
      norm_num
    have hcap : bigWeiToFloatGwei 30000000000 = 30 := by
      have h := bigWeiToFloatGwei_natCast 30000000000 (by norm_num)
      rw [show ((30000000000 : Nat) : Int) = 30000000000 from rfl] at h
      rw [h]
      norm_num
    have hdepositType : Nat.repr 126 = "126" := by decide
    have hdynamicType : Nat.repr 2 = "2" := by decide
    simp [record, recordLoop, recordStep, txEvents, txTag, sampleDeposit, sampleDynamicFee,
      DepositTxType, hzero, htip, hcap, hdepositType, hdynamicType, float64OfUint64]

/-- C11 (as amended): for every block with a non-nil base fee `v`, `record`
observes `bigWeiToFloatGwei v` into the base-fee histogram and sets the
base-fee gauge to the same value, each exactly once, right after observing
`float64(gasUsed)`, which is the gas used unchanged whenever
`gasUsed ≤ 2 ^ 53`; for 1,500,000,000 wei the base-fee value is 3/2. -/
theorem record_baseFee_observations (b : Address) (gasUsed : Nat) (v : Int)
    (txs : List (Option Transaction)) :
    (record b gasUsed (some v) txs).trace.filter (fun e => decide (e.sink = Sink.BaseFees))
      = [Event.observe Sink.BaseFees (bigWeiToFloatGwei v)]
    ∧ (record b gasUsed (some v) txs).trace.filter
          (fun e => decide (e.sink = Sink.BaseFeeGauge))
        = [Event.set Sink.BaseFeeGauge (bigWeiToFloatGwei v)]
    ∧ (record b gasUsed (some v) txs).trace.filter (fun e => decide (e.sink = Sink.GasUsed))
        = [Event.observe Sink.GasUsed (float64OfUint64 gasUsed)]
    ∧ (gasUsed ≤ 2 ^ 53 → float64OfUint64 gasUsed = (gasUsed : ℚ))
    ∧ (∃ pre, (record b gasUsed (some v) txs).trace
        = pre ++ [ Event.observe Sink.GasUsed (float64OfUint64 gasUsed),
                   Event.observe Sink.BaseFees (bigWeiToFloatGwei v),
                   Event.set Sink.BaseFeeGauge (bigWeiToFloatGwei v) ])
    ∧ bigWeiToFloatGwei 1500000000 = 3 / 2 := by
  refine ⟨?_, ?_, ?_, float64OfUint64_of_le gasUsed, ?_, ?_⟩
  · rw [record_trace_some, List.filter_append,
      loopEvents_filter_block b txs 0 Sink.BaseFees (by decide) (by decide)
        (by decide) (by decide) (by decide) (by decide)]
    simp [List.filter_cons, Event.sink]
  · rw [record_trace_some, List.filter_append,
      loopEvents_filter_block b txs 0 Sink.BaseFeeGauge (by decide) (by decide)
        (by decide) (by decide) (by decide) (by decide)]
    simp [List.filter_cons, Event.sink]
  · rw [record_trace_some, List.filter_append,
      loopEvents_filter_block b txs 0 Sink.GasUsed (by decide) (by decide)
        (by decide) (by decide) (by decide) (by decide)]
    simp [List.filter_cons, Event.sink]
  · rw [record_trace_some]
    exact ⟨loopEvents b 0 txs
      ++ [ Event.observe Sink.BodySizes
             ((recordLoop b 0 { bodySize := 0, emitted := [] } txs).bodySize : ℚ),
           Event.observe Sink.TransactionCounts (txs.length : ℚ) ], by simp⟩
  · have h := bigWeiToFloatGwei_eq_div 1500000000 (by norm_num)
    rw [show ((1500000000 : Nat) : Int) = 1500000000 from rfl] at h
    rw [h]
    norm_num

/-- C11 (witness): gas used 30,000,000, observed unchanged. -/
theorem record_baseFee_observations_witness :
    (30000000 : Nat) ≤ 2 ^ 53
    ∧ float64OfUint64 30000000 = ((30000000 : Nat) : ℚ)
    ∧ (record sampleBatchInbox 30000000 (some 1500000000) []).trace.filter
          (fun e => decide (e.sink = Sink.GasUsed))
        = [Event.observe Sink.GasUsed (float64OfUint64 30000000)] :=
  ⟨by decide,
    (record_baseFee_observations sampleBatchInbox 30000000 1500000000 []).2.2.2.1 (by decide),
    (record_baseFee_observations sampleBatchInbox 30000000 1500000000 []).2.2.1⟩

/-- C11 (counterexample): with a nil base fee `record` writes neither to the
base-fee histogram nor to the base-fee gauge; and with gas used `2 ^ 53 + 1` it
observes `2 ^ 53`, not the gas used. -/
theorem record_baseFee_nil_or_gasUsed_rounded :
    (record sampleBatchInbox 30000000 none []).trace.filter
        (fun e => decide (e.sink = Sink.BaseFees)) = []
    ∧ (record sampleBatchInbox 30000000 none []).trace.filter
        (fun e => decide (e.sink = Sink.BaseFeeGauge)) = []
    ∧ (record sampleBatchInbox (2 ^ 53 + 1) (some 0) []).trace.filter
        (fun e => decide (e.sink = Sink.GasUsed))
      = [Event.observe Sink.GasUsed ((2 ^ 53 : Nat) : ℚ)]
    ∧ ((2 ^ 53 : Nat) : ℚ) ≠ ((2 ^ 53 + 1 : Nat) : ℚ) := by
  refine ⟨by decide, by decide, ?_, by decide⟩
  have hround : float64OfUint64 (2 ^ 53 + 1) = ((2 ^ 53 : Nat) : ℚ) := by decide
  rw [(record_trace_some sampleBatchInbox (2 ^ 53 + 1) 0 []), hround]
  simp [loopEvents_nil, List.filter_cons, Event.sink]

/-- C12: when every raw transaction of an execution payload decodes, to the
list `txs`, `RecordExecutionPayload` yields the very outcome (the same
observations in the same order) of `RecordBlock` on a block with the same gas
used, the same base fee and the transactions `txs`. -/
theorem recordExecutionPayload_eq_recordBlock (b : Address)
    (dec : Bytes → Except String Transaction) (payload : ExecutionPayload)
    (txs : List Transaction)
    (hall : payload.Transactions.map dec = txs.map Except.ok) :
    RecordExecutionPayload b dec payload
      = RecordBlock b
          { GasUsed := payload.GasUsed, BaseFee := some (payload.BaseFeePerGas : Int) }
          (txs.map some) := by
  have hmap := decodeTransactions_eq_map dec payload.Transactions
  have hcomp : payload.Transactions.map (fun encTx => (dec encTx).toOption)
      = (payload.Transactions.map dec).map Except.toOption := by
    rw [List.map_map]; rfl
  have hsome : (txs.map (Except.ok : Transaction → Except String Transaction)).map
      Except.toOption = txs.map some := by
    rw [List.map_map]; rfl
  simp only [RecordExecutionPayload, RecordBlock]
  rw [hmap, hcomp, hall, hsome]

/-- C12 (witness): a payload of two raw entries that both decode. -/
theorem recordExecutionPayload_eq_recordBlock_witness :
    ([[1], [2]] : List Bytes).map sampleUnmarshal
      = [sampleDeposit, sampleDeposit].map Except.ok
    ∧ RecordExecutionPayload sampleBatchInbox sampleUnmarshal
        { GasUsed := 21000, BaseFeePerGas := 7, Transactions := [[1], [2]] }
      = RecordBlock sampleBatchInbox { GasUsed := 21000, BaseFee := some ((7 : Nat) : Int) }
          ([sampleDeposit, sampleDeposit].map some) :=
  ⟨rfl,
    recordExecutionPayload_eq_recordBlock sampleBatchInbox sampleUnmarshal
      { GasUsed := 21000, BaseFeePerGas := 7, Transactions := [[1], [2]] }
      [sampleDeposit, sampleDeposit] rfl⟩

/-- C13 (as amended): on the struct that `NewBlockMetrics` builds, for every gas
used, every non-nil base fee and every transaction sequence, `record` and
`RecordBlock` pass every run-time check (set sinks, non-nil operands and a
non-zero divisor of `QuoRem`) and reach their last statement, the gauge
update; `RecordExecutionPayload` does so for every non-nil payload and every
decoder, its slice assignments staying in range. -/
theorem recordChecked_completes {H HV CV G : Type} (factory : Factory H HV CV G)
    (ns subsystem displayName : String) (b : Address) (gasUsed : Nat) (v : Int)
    (txs : List (Option Transaction)) :
    (recordChecked (NewBlockMetrics factory ns subsystem displayName) b gasUsed (some v)
        txs).panicked = false
    ∧ (recordChecked (NewBlockMetrics factory ns subsystem displayName) b gasUsed (some v)
        txs).trace.getLast? = some (Event.set Sink.BaseFeeGauge (bigWeiToFloatGwei v))
    ∧ (RecordBlockChecked (NewBlockMetrics factory ns subsystem displayName) b
        { GasUsed := gasUsed, BaseFee := some v } txs).panicked = false
    ∧ (RecordBlockChecked (NewBlockMetrics factory ns subsystem displayName) b
        { GasUsed := gasUsed, BaseFee := some v } txs).trace.getLast?
          = some (Event.set Sink.BaseFeeGauge (bigWeiToFloatGwei v))
    ∧ (∀ (dec : Bytes → Except String Transaction) (payload : ExecutionPayload),
        (RecordExecutionPayloadChecked (NewBlockMetrics factory ns subsystem displayName) b
          dec (some payload)).panicked = false
        ∧ (RecordExecutionPayloadChecked (NewBlockMetrics factory ns subsystem displayName) b
            dec (some payload)).trace.getLast?
            = some (Event.set Sink.BaseFeeGauge
                (bigWeiToFloatGwei (payload.BaseFeePerGas : Int)))) := by
  have hlast : ∀ (g : Nat) (w : Int) (l : List (Option Transaction)),
      (record b g (some w) l).trace.getLast?
        = some (Event.set Sink.BaseFeeGauge (bigWeiToFloatGwei w)) := by
    intro g w l
    rw [record_trace_some, List.getLast?_append]
    simp
  have hdone : ∀ (g : Nat) (w : Int) (l : List (Option Transaction)),
      (record b g (some w) l).panicked = false := by
    intro g w l
    rfl
  refine ⟨?_, ?_, ?_, ?_, ?_⟩
  · rw [recordChecked_newBlockMetrics]
    exact hdone gasUsed v txs
  · rw [recordChecked_newBlockMetrics]
    exact hlast gasUsed v txs
  · unfold RecordBlockChecked
    rw [recordChecked_newBlockMetrics]
    exact hdone gasUsed v txs
  · unfold RecordBlockChecked
    rw [recordChecked_newBlockMetrics]
    exact hlast gasUsed v txs
  · intro dec payload
    rw [recordExecutionPayloadChecked_newBlockMetrics]
    exact ⟨hdone _ _ _, hlast _ _ _⟩

/-- C13 (counterexample): on the struct that `NewBlockMetrics` builds, `record`
and `RecordBlock` panic with a nil base fee, already on the empty transaction
sequence and after the gas-used observation; `RecordExecutionPayload` panics
on a nil payload before any observation. -/
theorem record_nil_baseFee_panics :
    (recordChecked (NewBlockMetrics sampleFactory "op_node" "l2" "L2") sampleBatchInbox
        21000 none []).panicked = true
    ∧ (recordChecked (NewBlockMetrics sampleFactory "op_node" "l2" "L2") sampleBatchInbox
        21000 none []).trace
        = [ Event.observe Sink.BodySizes 0,
            Event.observe Sink.TransactionCounts 0,
            Event.observe Sink.GasUsed 21000 ]
    ∧ (RecordBlockChecked (NewBlockMetrics sampleFactory "op_node" "l2" "L2")
        sampleBatchInbox { GasUsed := 21000, BaseFee := none } []).panicked = true
    ∧ (RecordExecutionPayloadChecked (NewBlockMetrics sampleFactory "op_node" "l2" "L2")
        sampleBatchInbox sampleUnmarshal none).panicked = true
    ∧ (RecordExecutionPayloadChecked (NewBlockMetrics sampleFactory "op_node" "l2" "L2")
        sampleBatchInbox sampleUnmarshal none).trace = []
    ∧ (record sampleBatchInbox 21000 none []).panicked = true
    ∧ (RecordBlock sampleBatchInbox { GasUsed := 21000, BaseFee := none } []).panicked
        = true := by
  decide

/-- C14 (the code at the failing input): whatever the factory, namespace,
subsystem and display name, the struct that `NewBlockMetrics` returns has its
field `TransactionGasLimit` unset, while the other eleven fields are set. -/
theorem newBlockMetrics_gasLimit_unset {H HV CV G : Type} (factory : Factory H HV CV G)
    (ns subsystem displayName : String) :
    (NewBlockMetrics factory ns subsystem displayName).TransactionGasLimit = none
    ∧ (NewBlockMetrics factory ns subsystem displayName).isSet Sink.TransactionGasLimit = false
    ∧ (NewBlockMetrics sampleFactory "op_node" "l2" "L2").TransactionGasLimit = none
    ∧ (NewBlockMetrics sampleFactory "op_node" "l2" "L2").TransactionNonce
        = some "transaction_nonce" :=
  ⟨rfl, rfl, rfl, rfl⟩

/-- C15 (the code at the failing input): for the block of the one transaction
`sampleDeposit`, of size 200, `record` observes the body size 200, not the 204
that the help text of `block_body_sizes` announces. -/
theorem record_bodySizes_without_overhead :
    (record sampleBatchInbox 0 (some 0) [some sampleDeposit]).trace.filter
        (fun e => decide (e.sink = Sink.BodySizes))
      = [Event.observe Sink.BodySizes 200]
    ∧ (record sampleBatchInbox 0 (some 0) [some sampleDeposit]).trace.filter
        (fun e => decide (e.sink = Sink.BodySizes))
      ≠ [Event.observe Sink.BodySizes
          ((([some sampleDeposit].reduceOption.map
            (fun tx => tx.Size + 4)).sum : Nat) : ℚ)] := by
  have h := record_trace sampleBatchInbox 0 (some 0) [some sampleDeposit]
  have hf : (record sampleBatchInbox 0 (some 0) [some sampleDeposit]).trace.filter
        (fun e => decide (e.sink = Sink.BodySizes))
      = [Event.observe Sink.BodySizes 200] := by
    rw [h, List.filter_append,
      loopEvents_filter_block sampleBatchInbox [some sampleDeposit] 0 Sink.BodySizes
        (by decide) (by decide) (by decide) (by decide) (by decide) (by decide)]
    simp [List.filter_cons, Event.sink, recordLoop, recordStep, sampleDeposit]
  refine ⟨hf, ?_⟩
  rw [hf]
  decide

/-- C16 (as amended): the tag labels of `record` are the strings "l1_info" for
a deposit at index 0, "user_deposit" for a deposit at any other index,
"contract" for a non-deposit with no destination and "other" for the default
case; the events of a present slot carry the label of its transaction. -/
theorem record_tag_labels (b : Address) (gasUsed : Nat) (baseFee : Option Int)
    (txs : List (Option Transaction)) (i : Nat) (tx : Transaction)
    (hslot : txs[i]? = some (some tx)) :
    (∃ post, (record b gasUsed baseFee txs).trace
        = loopEvents b 0 (txs.take i) ++ txEvents (txTag b i tx) tx ++ post)
    ∧ (tx.TxType = DepositTxType → i = 0 → txTag b i tx = "l1_info")
    ∧ (tx.TxType = DepositTxType → i ≠ 0 → txTag b i tx = "user_deposit")
    ∧ (tx.TxType ≠ DepositTxType → tx.To = none → txTag b i tx = "contract")
    ∧ (∀ dst : Address, tx.TxType ≠ DepositTxType → tx.To = some dst → dst ≠ b →
        dst ≠ goerliBaseInbox → txTag b i tx = "other") := by
  refine ⟨record_trace_at b gasUsed baseFee txs i tx hslot, ?_, ?_, ?_, ?_⟩
  · intro hdep hi
    simp [txTag, hdep, hi, l1InfoTx]
  · intro hdep hi
    simp [txTag, hdep, hi, userDepositTx]
  · intro hkind hto
    simp [txTag, hkind, hto, contractDeployment]
  · intro dst hkind hto hb hg
    simp [txTag, hkind, hto, hb, hg, otherTx]

/-- C16 (witness): a deposit at index 0 carries the label "l1_info". -/
theorem record_tag_labels_witness :
    [some sampleDeposit][0]? = some (some sampleDeposit)
    ∧ sampleDeposit.TxType = DepositTxType
    ∧ txTag sampleBatchInbox 0 sampleDeposit = "l1_info" :=
  ⟨by decide, by decide,
    (record_tag_labels sampleBatchInbox 0 (some 0) [some sampleDeposit] 0 sampleDeposit
      (by decide)).2.1 (by decide) rfl⟩

/-- C16 (counterexample): the labels of a deposit at index 0, of a deposit at
index 1 and of a contract creation are not "l1-info", "user-deposit" and
"contract-deployment". -/
theorem record_tag_labels_differ :
    txTag sampleBatchInbox 0 sampleDeposit = "l1_info"
    ∧ txTag sampleBatchInbox 0 sampleDeposit ≠ "l1-info"
    ∧ txTag sampleBatchInbox 1 sampleDeposit ≠ "user-deposit"
    ∧ txTag sampleBatchInbox 0 (sampleDynamicFee none) ≠ "contract-deployment"
    ∧ (record sampleBatchInbox 0 (some 0) [some sampleDeposit]).trace.head?
        = some (Event.observeTagged Sink.TransactionSize "l1_info" 200) := by
  refine ⟨by decide, by decide, by decide, by decide, ?_⟩
  rw [record_trace, loopEvents_cons_some]
  rfl

/-- C17: the tag of a non-deposit transaction does not depend on its index:
at any two indices `i` and `j`, in any two sequences, `record` emits its events
under one and the same tag. -/
theorem record_tag_index_free (b : Address) (gasUsed : Nat) (baseFee : Option Int)
    (txs txs' : List (Option Transaction)) (i j : Nat) (tx : Transaction)
    (hkind : tx.TxType ≠ DepositTxType)
    (hi : txs[i]? = some (some tx)) (hj : txs'[j]? = some (some tx)) :
    txTag b i tx = txTag b j tx
    ∧ txTag b i tx = txTag b 0 tx
    ∧ (∃ post, (record b gasUsed baseFee txs).trace
        = loopEvents b 0 (txs.take i) ++ txEvents (txTag b 0 tx) tx ++ post)
    ∧ (∃ post, (record b gasUsed baseFee txs').trace
        = loopEvents b 0 (txs'.take j) ++ txEvents (txTag b 0 tx) tx ++ post) := by
  have hfree : ∀ k : Nat, txTag b k tx = txTag b 0 tx := by
    intro k
    simp [txTag, hkind]
  refine ⟨(hfree i).trans (hfree j).symm, hfree i, ?_, ?_⟩
  · rw [← hfree i]
    exact record_trace_at b gasUsed baseFee txs i tx hi
  · rw [← hfree j]
    exact record_trace_at b gasUsed baseFee txs' j tx hj

/-- C17 (witness): a contract creation at index 0 of one block and at index 2 of
another. -/
theorem record_tag_index_free_witness :
    (sampleDynamicFee none).TxType ≠ DepositTxType
    ∧ [some (sampleDynamicFee none)][0]? = some (some (sampleDynamicFee none))
    ∧ [some sampleDeposit, none, some (sampleDynamicFee none)][2]?
        = some (some (sampleDynamicFee none))
    ∧ txTag sampleBatchInbox 0 (sampleDynamicFee none)
        = txTag sampleBatchInbox 2 (sampleDynamicFee none) :=
  ⟨by decide, by decide, by decide,
    (record_tag_index_free sampleBatchInbox 0 (some 0) [some (sampleDynamicFee none)]
      [some sampleDeposit, none, some (sampleDynamicFee none)] 0 2 (sampleDynamicFee none)
      (by decide) (by decide) (by decide)).1⟩

/-- C18: for wei values `0 ≤ v ≤ w < 2 ^ 64 * 10 ^ 9` the `Uint64` conversions
of `bigWeiToFloatGwei` lose nothing: the quotient and the remainder handed to
`float64` are `v div 10^9` and `v mod 10^9`, with `0 ≤ v mod 10^9 < 10^9`; the
result is `v / 10^9`, lies in `[v div 10^9, v div 10^9 + 1)`, and does not
decrease from `v` to `w`. -/
theorem bigWeiToFloatGwei_in_range (v w : Int) (h0 : 0 ≤ v) (hvw : v ≤ w)
    (hfit : w < 2 ^ 64 * 10 ^ 9) :
    ((bigUint64 (Int.tdiv v (GWei : Int)) : Nat) : Int) = v / 10 ^ 9
    ∧ ((bigUint64 (Int.tmod v (GWei : Int)) : Nat) : Int) = v % 10 ^ 9
    ∧ 0 ≤ v % 10 ^ 9 ∧ v % 10 ^ 9 < 10 ^ 9
    ∧ bigWeiToFloatGwei v = (v : ℚ) / 10 ^ 9
    ∧ ((v / 10 ^ 9 : Int) : ℚ) ≤ bigWeiToFloatGwei v
    ∧ bigWeiToFloatGwei v < ((v / 10 ^ 9 : Int) : ℚ) + 1
    ∧ bigWeiToFloatGwei v ≤ bigWeiToFloatGwei w := by
  obtain ⟨n, rfl⟩ := Int.eq_ofNat_of_zero_le h0
  obtain ⟨m, rfl⟩ := Int.eq_ofNat_of_zero_le (le_trans h0 hvw)
  have hm : m < 2 ^ 64 * 10 ^ 9 := by exact_mod_cast hfit
  have hnm : n ≤ m := by exact_mod_cast hvw
  have hn : n < 2 ^ 64 * 10 ^ 9 := lt_of_le_of_lt hnm hm
  have hq : ((n : Int) / 10 ^ 9) = ((n / 10 ^ 9 : Nat) : Int) := by
    rw [Int.ofNat_ediv]; rfl
  have hr : ((n : Int) % 10 ^ 9) = ((n % 10 ^ 9 : Nat) : Int) := by
    rw [Int.ofNat_emod]; rfl
  have hrlt : n % 10 ^ 9 < 10 ^ 9 := Nat.mod_lt n (by norm_num)
  have hpos : (0 : ℚ) < 10 ^ 9 := by norm_num
  have hsplit := bigWeiToFloatGwei_natCast n hn
  have hfrac0 : (0 : ℚ) ≤ ((n % 10 ^ 9 : Nat) : ℚ) / 10 ^ 9 :=
    div_nonneg (Nat.cast_nonneg _) (le_of_lt hpos)
  have hfrac1 : ((n % 10 ^ 9 : Nat) : ℚ) / 10 ^ 9 < 1 := by
    rw [div_lt_one hpos]
    have h2 : ((n % 10 ^ 9 : Nat) : ℚ) < ((10 ^ 9 : Nat) : ℚ) := Nat.cast_lt.mpr hrlt
    rw [Nat.cast_pow] at h2
    exact h2
  refine ⟨?_, ?_, ?_, ?_, bigWeiToFloatGwei_eq_div n hn, ?_, ?_, ?_⟩
  · rw [bigUint64_quo n hn, hq]
  · rw [bigUint64_rem n, hr]
  · rw [hr]; exact Int.ofNat_nonneg _
  · rw [hr]
    have h2 : ((n % 10 ^ 9 : Nat) : Int) < ((10 ^ 9 : Nat) : Int) := Int.ofNat_lt.mpr hrlt
    rw [Nat.cast_pow] at h2
    exact h2
  · rw [hsplit, hq, Int.cast_natCast]
    linarith
  · rw [hsplit, hq, Int.cast_natCast]
    linarith
  · rw [bigWeiToFloatGwei_eq_div n hn, bigWeiToFloatGwei_eq_div m hm]
    apply div_le_div_of_nonneg_right _ (le_of_lt hpos)
    exact Nat.cast_le.mpr hnm

/-- C18 (witness): the values 1,500,000,000 and 2,000,000,000 wei. -/
theorem bigWeiToFloatGwei_in_range_witness :
    (0 : Int) ≤ 1500000000 ∧ (1500000000 : Int) ≤ 2000000000
    ∧ (2000000000 : Int) < 2 ^ 64 * 10 ^ 9
    ∧ bigWeiToFloatGwei 1500000000 = ((1500000000 : Int) : ℚ) / 10 ^ 9
    ∧ bigWeiToFloatGwei 1500000000 ≤ bigWeiToFloatGwei 2000000000 :=
  ⟨by decide, by decide, by decide,
    (bigWeiToFloatGwei_in_range 1500000000 2000000000 (by decide) (by decide)
      (by decide)).2.2.2.2.1,
    (bigWeiToFloatGwei_in_range 1500000000 2000000000 (by decide) (by decide)
      (by decide)).2.2.2.2.2.2.2⟩

/-- C19: `NewBlockMetrics` sets the eleven sinks that `record` reads; every
operation of `record` goes to a set sink, so that on the struct that
`NewBlockMetrics` builds `record` never stops at an unset sink; the one field
left unset is `TransactionGasLimit`, which no operation of `record` goes to. -/
theorem newBlockMetrics_sets_recorded_sinks {H HV CV G : Type} (factory : Factory H HV CV G)
    (ns subsystem displayName : String) (b : Address) (gasUsed : Nat)
    (baseFee : Option Int) (txs : List (Option Transaction)) :
    ((NewBlockMetrics factory ns subsystem displayName).BodySizes.isSome = true
      ∧ (NewBlockMetrics factory ns subsystem displayName).TransactionCounts.isSome = true
      ∧ (NewBlockMetrics factory ns subsystem displayName).GasUsed.isSome = true
      ∧ (NewBlockMetrics factory ns subsystem displayName).TransactionSize.isSome = true
      ∧ (NewBlockMetrics factory ns subsystem displayName).TransactionCallData.isSome = true
      ∧ (NewBlockMetrics factory ns subsystem displayName).TransactionNonce.isSome = true
      ∧ (NewBlockMetrics factory ns subsystem displayName).TransactionType.isSome = true
      ∧ (NewBlockMetrics factory ns subsystem displayName).TransactionPriorityFee.isSome = true
      ∧ (NewBlockMetrics factory ns subsystem displayName).TransactionMaxFee.isSome = true
      ∧ (NewBlockMetrics factory ns subsystem displayName).BaseFees.isSome = true
      ∧ (NewBlockMetrics factory ns subsystem displayName).BaseFeeGauge.isSome = true)
    ∧ (record b gasUsed baseFee txs).trace.all
        (fun e => (NewBlockMetrics factory ns subsystem displayName).isSet e.sink) = true
    ∧ recordOn (NewBlockMetrics factory ns subsystem displayName) b gasUsed baseFee txs
        = record b gasUsed baseFee txs
    ∧ (∀ s : Sink, (NewBlockMetrics factory ns subsystem displayName).isSet s = false
        ↔ s = Sink.TransactionGasLimit)
    ∧ (record b gasUsed baseFee txs).trace.all
        (fun e => decide (e.sink ≠ Sink.TransactionGasLimit)) = true := by
  refine ⟨⟨rfl, rfl, rfl, rfl, rfl, rfl, rfl, rfl, rfl, rfl, rfl⟩,
    record_trace_all_set factory ns subsystem displayName b gasUsed baseFee txs,
    recordOn_newBlockMetrics factory ns subsystem displayName b gasUsed baseFee txs, ?_, ?_⟩
  · intro s
    rw [newBlockMetrics_isSet]
    cases s <;> decide
  · rw [List.all_eq_true]
    intro e he
    exact decide_eq_true (record_trace_sink b gasUsed baseFee txs e he)

end BlockMetrics
